import Mathlib

/-!
# Conway's Game of Life (`src/main.cpp`): embedding and verified properties

The C++ program is embedded shallowly:

* `std::vector<std::vector<bool>>` is a `List (List Bool)` (outer index = row `y`,
  inner index = column `x`);
* `std::deque` of grids is a `List Grid`, front = head, back = last element;
* an `operator[]` access outside the vector is undefined behaviour in C++; here every
  function that indexes a grid returns `Option`, with `none` for such an access;
* `int` values are `Int`; where the program adds to an `int`, the sum is wrapped to
  32 bits (`wrapInt`);
* the loop body of `main` is the function `tick`, taking the values returned by the
  raylib queries of that frame as an `Input`.
-/

namespace GameOfLife

/-! ## Constants (main.cpp 8-13) -/

def GRID_WIDTH : Int := 80
def GRID_HEIGHT : Int := 60
def CELL_SIZE : Int := 10
def SCREEN_WIDTH : Int := GRID_WIDTH * CELL_SIZE
def SCREEN_HEIGHT : Int := GRID_HEIGHT * CELL_SIZE
def MAX_HISTORY : Nat := 100

/-- The enum `GameState` (main.cpp 15-19). -/
inductive GameState where
  | MAIN_MENU
  | SEED_MENU
  | SIMULATION
  deriving DecidableEq, Repr

/-- A `std::vector<std::vector<bool>>`: a list of rows. -/
abbrev Grid := List (List Bool)

/-! ## Machine integers and vector accesses -/

/-- Smallest value of a 32-bit `int`. -/
def INT_MIN : Int := -2147483648

/-- Largest value of a 32-bit `int`. -/
def INT_MAX : Int := 2147483647

/-- Reduction of a mathematical integer to the 32-bit two's complement range. -/
def wrapInt (v : Int) : Int := (v + 2147483648) % 4294967296 - 2147483648

/-- Whether a value is representable as a 32-bit `int`. -/
def isInt32 (v : Int) : Prop := INT_MIN ≤ v ∧ v ≤ INT_MAX

instance (v : Int) : Decidable (isInt32 v) := by unfold isInt32; infer_instance

/-- The read `grid[y][x]`; `none` when an index is outside its vector. -/
def readCell (grid : Grid) (x y : Int) : Option Bool :=
  if x < 0 ∨ y < 0 then none
  else
    match grid[y.toNat]? with
    | none => none
    | some row => row[x.toNat]?

/-- The write `grid[y][x] = v`; `none` when an index is outside its vector. -/
def writeCell (grid : Grid) (x y : Int) (v : Bool) : Option Grid :=
  if x < 0 ∨ y < 0 then none
  else
    match grid[y.toNat]? with
    | none => none
    | some row =>
      if x.toNat < row.length then some (grid.set y.toNat (row.set x.toNat v)) else none

/-- The loop `for (int k = 0; k < n; k++) body`, threading the mutated state. -/
def forLoop {σ : Type} (n : Int) (body : Int → σ → Option σ) (init : σ) : Option σ :=
  (List.range n.toNat).foldlM (fun st k => body (k : Int) st) init

/-! ## countNeighbors (main.cpp 21-36) -/

/-- The function `countNeighbors`: both loops run over `-1, 0, 1`, the centre is skipped
by `continue`, and a neighbour is read only after the bounds test. -/
def countNeighbors (grid : Grid) (x y : Int) : Option Int :=
  [-1, 0, 1].foldlM (fun count dy =>
    [-1, 0, 1].foldlM (fun count dx =>
      if dx = 0 ∧ dy = 0 then some count
      else
        let nx := wrapInt (x + dx)
        let ny := wrapInt (y + dy)
        if nx ≥ 0 ∧ nx < GRID_WIDTH ∧ ny ≥ 0 ∧ ny < GRID_HEIGHT then
          match readCell grid nx ny with
          | none => none
          | some c => if c then some (wrapInt (count + 1)) else some count
        else some count) count) (0 : Int)

/-! ## updateGrid (main.cpp 38-52) -/

/-- The function `updateGrid`: fills `nextGrid` cell by cell from `grid`, then assigns
`grid = nextGrid`. The result is the pair of the two reference parameters after the call. -/
def updateGrid (grid nextGrid : Grid) : Option (Grid × Grid) :=
  match
    forLoop GRID_HEIGHT (fun y nextGrid =>
      forLoop GRID_WIDTH (fun x nextGrid =>
        match countNeighbors grid x y with
        | none => none
        | some neighbors =>
          match readCell grid x y with
          | none => none
          | some alive =>
            if alive then
              writeCell nextGrid x y (decide (neighbors = 2 ∨ neighbors = 3))
            else
              writeCell nextGrid x y (decide (neighbors = 3))) nextGrid) nextGrid
  with
  | none => none
  | some nextGrid => some (nextGrid, nextGrid)

/-! ## randomSeed and clearGrid (main.cpp 54-68) -/

/-- The function `randomSeed` at its default density `0.3f`, for which
`(int)(density * 100)` is `30`. `draws k` is the value returned by the `k`-th call of
`GetRandomValue(0, 100)` made by this call; cell `(x, y)` is reached by call number
`y * GRID_WIDTH + x`. -/
def randomSeed (draws : Nat → Int) (grid : Grid) : Option Grid :=
  forLoop GRID_HEIGHT (fun y grid =>
    forLoop GRID_WIDTH (fun x grid =>
      writeCell grid x y (decide (draws (y * GRID_WIDTH + x).toNat < 30))) grid) grid

/-- The function `clearGrid`. -/
def clearGrid (grid : Grid) : Option Grid :=
  forLoop GRID_HEIGHT (fun y grid =>
    forLoop GRID_WIDTH (fun x grid =>
      writeCell grid x y false) grid) grid


/-! ## The session state and the inputs of one frame (main.cpp 95-103) -/

/-- The all-dead grid built by `std::vector<std::vector<bool>>(GRID_HEIGHT,
std::vector<bool>(GRID_WIDTH, false))` (main.cpp 95-96). -/
def emptyGrid : Grid := List.replicate GRID_HEIGHT.toNat (List.replicate GRID_WIDTH.toNat false)

/-- The local variables of `main` that live across iterations of the frame loop. -/
structure Session where
  grid : Grid
  nextGrid : Grid
  history : List Grid
  currentState : GameState
  paused : Bool
  frameCounter : Int

/-- What the raylib queries return during one frame. The mouse position is carried in
whole pixels; `draws k` is the value of the `k`-th `GetRandomValue(0, 100)` call. -/
structure Input where
  mouseLeftDown : Bool
  mouseRightDown : Bool
  mouseLeftPressed : Bool
  mouseX : Int
  mouseY : Int
  keySpace : Bool
  keyRight : Bool
  keyLeft : Bool
  keyC : Bool
  keyEscape : Bool
  draws : Nat → Int

/-- The result of one iteration of the frame loop: the loop goes on with a new state, or
`main` returns from inside the loop (the QUIT button). -/
inductive Outcome where
  | running (s : Session)
  | exited

/-- The state of `main` when the frame loop is entered (main.cpp 95-103). -/
def initialSession : Session where
  grid := emptyGrid
  nextGrid := emptyGrid
  history := []
  currentState := GameState.MAIN_MENU
  paused := true
  frameCounter := 0

/-! ## Buttons (main.cpp 70-85) -/

/-- The function `isMouseOver`. -/
def isMouseOver (i : Input) (x y width height : Int) : Bool :=
  decide (i.mouseX ≥ x) && decide (i.mouseX ≤ x + width) &&
    decide (i.mouseY ≥ y) && decide (i.mouseY ≤ y + height)

/-- The return value of `drawButton`; its drawing calls change no program state. -/
def drawButton (i : Input) (isHovered : Bool) : Bool :=
  isHovered && i.mouseLeftPressed

/-! ## The update half of a SIMULATION frame (main.cpp 112-177) -/

/-- Left mouse button held: `grid[y][x] = true` for the cell under the mouse, when that
cell is inside the grid (main.cpp 113-120). The float quotient `mousePos.x / CELL_SIZE` is
converted to `int` by truncation toward zero. -/
def handleDraw (s : Session) (i : Input) : Option Session :=
  if i.mouseLeftDown then
    let x := Int.tdiv i.mouseX CELL_SIZE
    let y := Int.tdiv i.mouseY CELL_SIZE
    if x ≥ 0 ∧ x < GRID_WIDTH ∧ y ≥ 0 ∧ y < GRID_HEIGHT then
      match writeCell s.grid x y true with
      | none => none
      | some grid => some { s with grid := grid }
    else some s
  else some s

/-- Right mouse button held: `grid[y][x] = false` (main.cpp 122-129). -/
def handleErase (s : Session) (i : Input) : Option Session :=
  if i.mouseRightDown then
    let x := Int.tdiv i.mouseX CELL_SIZE
    let y := Int.tdiv i.mouseY CELL_SIZE
    if x ≥ 0 ∧ x < GRID_WIDTH ∧ y ≥ 0 ∧ y < GRID_HEIGHT then
      match writeCell s.grid x y false with
      | none => none
      | some grid => some { s with grid := grid }
    else some s
  else some s

/-- SPACE toggles `paused` (main.cpp 131-133). -/
def handlePause (s : Session) (i : Input) : Session :=
  if i.keySpace then { s with paused := !s.paused } else s

/-- The history push made before every generation step: `history.push_back(grid)`, then
`history.pop_front()` if the size exceeds `MAX_HISTORY` (main.cpp 138-141 and 169-172). -/
def pushHistory (history : List Grid) (grid : Grid) : List Grid :=
  let history := history ++ [grid]
  if history.length > MAX_HISTORY then history.tail else history

/-- RIGHT while paused: save the grid to the history, then `updateGrid`
(main.cpp 135-143). -/
def handleStepForward (s : Session) (i : Input) : Option Session :=
  if s.paused && i.keyRight then
    let history := pushHistory s.history s.grid
    match updateGrid s.grid s.nextGrid with
    | none => none
    | some (grid, nextGrid) =>
      some { s with history := history, grid := grid, nextGrid := nextGrid }
  else some s

/-- LEFT while paused: restore `history.back()` and `pop_back`, if the history is not
empty (main.cpp 145-151). -/
def handleStepBackward (s : Session) (i : Input) : Session :=
  if s.paused && i.keyLeft then
    match s.history.getLast? with
    | some back => { s with grid := back, history := s.history.dropLast }
    | none => s
  else s

/-- C: `clearGrid(grid)` and `history.clear()` (main.cpp 153-156). -/
def handleClear (s : Session) (i : Input) : Option Session :=
  if i.keyC then
    match clearGrid s.grid with
    | none => none
    | some grid => some { s with grid := grid, history := [] }
  else some s

/-- ESCAPE: back to the main menu, paused, grid and history cleared (main.cpp 158-163). -/
def handleEscape (s : Session) (i : Input) : Option Session :=
  if i.keyEscape then
    match clearGrid s.grid with
    | none => none
    | some grid =>
      some { s with currentState := GameState.MAIN_MENU, paused := true, grid := grid,
                    history := [] }
  else some s

/-- Auto-advance while not paused: `frameCounter++`, and on reaching 6 a history push,
`updateGrid` and a counter reset (main.cpp 165-176). -/
def autoAdvance (s : Session) : Option Session :=
  if !s.paused then
    let frameCounter := wrapInt (s.frameCounter + 1)
    if frameCounter ≥ 6 then
      let history := pushHistory s.history s.grid
      match updateGrid s.grid s.nextGrid with
      | none => none
      | some (grid, nextGrid) =>
        some { s with history := history, grid := grid, nextGrid := nextGrid,
                      frameCounter := 0 }
    else some { s with frameCounter := frameCounter }
  else some s

/-- The update half of a frame: nothing in the two menus, the eight steps above in
source order in SIMULATION (main.cpp 106-177). -/
def updateFrame (s : Session) (i : Input) : Option Session :=
  match s.currentState with
  | GameState.MAIN_MENU => some s
  | GameState.SEED_MENU => some s
  | GameState.SIMULATION =>
    (handleDraw s i).bind fun s =>
    (handleErase s i).bind fun s =>
    (handleStepForward (handlePause s i) i).bind fun s =>
    (handleClear (handleStepBackward s i) i).bind fun s =>
    (handleEscape s i).bind fun s =>
    autoAdvance s

/-! ## The drawing half of a frame (main.cpp 179-257) -/

/-- The cell loop of the SIMULATION screen: reads every `grid[y][x]` and collects the
origin of each rectangle drawn (main.cpp 236-242). -/
def renderCells (grid : Grid) : Option (List (Int × Int)) :=
  forLoop GRID_HEIGHT (fun y rects =>
    forLoop GRID_WIDTH (fun x rects =>
      match readCell grid x y with
      | none => none
      | some alive =>
        if alive then some (rects ++ [(x * CELL_SIZE, y * CELL_SIZE)]) else some rects)
      rects) []

/-- The main menu screen: START leads to the seed menu, QUIT returns from `main`
(main.cpp 182-202). -/
def drawMainMenu (s : Session) (i : Input) : Outcome :=
  let buttonWidth : Int := 300
  let buttonHeight : Int := 60
  let buttonX : Int := (SCREEN_WIDTH - buttonWidth) / 2
  let startHovered := isMouseOver i buttonX 250 buttonWidth buttonHeight
  let quitHovered := isMouseOver i buttonX 330 buttonWidth buttonHeight
  let s := if drawButton i startHovered then { s with currentState := GameState.SEED_MENU }
           else s
  if drawButton i quitHovered then Outcome.exited else Outcome.running s

/-- The BLANK button of the seed menu (main.cpp 215-220). -/
def chooseBlank (s : Session) : Option Session :=
  match clearGrid s.grid with
  | none => none
  | some grid =>
    some { s with grid := grid, history := [], currentState := GameState.SIMULATION,
                  paused := false }

/-- The RANDOM SEED button of the seed menu (main.cpp 222-228). -/
def chooseRandom (s : Session) (i : Input) : Option Session :=
  (clearGrid s.grid).bind fun grid =>
  (randomSeed i.draws grid).bind fun grid =>
  some { s with grid := grid, history := [], currentState := GameState.SIMULATION,
                paused := false }

/-- The seed menu screen: BLANK, RANDOM SEED, then ESCAPE back to the main menu
(main.cpp 203-234). -/
def drawSeedMenu (s : Session) (i : Input) : Option Session :=
  let buttonWidth : Int := 300
  let buttonHeight : Int := 60
  let buttonX : Int := (SCREEN_WIDTH - buttonWidth) / 2
  let blankHovered := isMouseOver i buttonX 220 buttonWidth buttonHeight
  let randomHovered := isMouseOver i buttonX 300 buttonWidth buttonHeight
  (if drawButton i blankHovered then chooseBlank s else some s).bind fun s =>
  (if drawButton i randomHovered then chooseRandom s i else some s).bind fun s =>
  if i.keyEscape then some { s with currentState := GameState.MAIN_MENU } else some s

/-- The drawing half of a frame, selected by the state left by the update half
(main.cpp 179-257). -/
def drawFrame (s : Session) (i : Input) : Option Outcome :=
  match s.currentState with
  | GameState.MAIN_MENU => some (drawMainMenu s i)
  | GameState.SEED_MENU => (drawSeedMenu s i).map Outcome.running
  | GameState.SIMULATION => (renderCells s.grid).map fun _ => Outcome.running s

/-- One iteration of the frame loop of `main` (main.cpp 105-258). `none` stands for an
out-of-range vector access. -/
def tick (s : Session) (i : Input) : Option Outcome :=
  (updateFrame s i).bind fun s => drawFrame s i

/-- A run of the frame loop over the inputs of successive frames; the run stops when
`main` returns. -/
def runTicks : Session → List Input → Option Outcome
  | s, [] => some (Outcome.running s)
  | s, i :: rest =>
    match tick s i with
    | none => none
    | some Outcome.exited => some Outcome.exited
    | some (Outcome.running s1) => runTicks s1 rest

/-- The states the frame loop can be in at the start of a frame. -/
inductive Reachable : Session → Prop where
  | init : Reachable initialSession
  | step {s s1 : Session} (i : Input) :
      Reachable s → tick s i = some (Outcome.running s1) → Reachable s1

/-! ## The step function as a function of the grid alone -/

/-- One generation: the grid left by `updateGrid`, called with a fresh all-dead `nextGrid`
buffer as at program start. -/
def step (grid : Grid) : Option Grid :=
  (updateGrid grid emptyGrid).map Prod.fst

/-- The step function applied `k` times in a row. -/
def stepTimes : Nat → Grid → Option Grid
  | 0, grid => some grid
  | k + 1, grid => (stepTimes k grid).bind step
/-! ## Well-formed grids and pure views of a grid -/

/-- A grid of `GRID_HEIGHT = 60` rows of `GRID_WIDTH = 80` cells, as built in `main`. -/
def WellFormed (g : Grid) : Prop := g.length = 60 ∧ ∀ row ∈ g, row.length = 80

/-- The cell `(x, y)` of a grid, `false` where the grid has no such cell. -/
def cellAt (g : Grid) (x y : Int) : Bool := (g.getD y.toNat []).getD x.toNat false

/-- The grid after `grid[y][x] = v`, for an access that is in range. -/
def setCell (g : Grid) (x y : Int) (v : Bool) : Grid :=
  g.set y.toNat ((g.getD y.toNat []).set x.toNat v)

/-- The 60 x 80 grid whose cell `(x, y)` holds `f x y`. -/
def gridOf (f : Int → Int → Bool) : Grid :=
  (List.range 60).map (fun (y : Nat) => (List.range 80).map (fun (x : Nat) => f (x : Int) (y : Int)))

/-- Whether `(x, y)` is inside the grid and alive there. -/
def aliveAt (g : Grid) (x y : Int) : Bool :=
  decide (x ≥ 0 ∧ x < GRID_WIDTH ∧ y ≥ 0 ∧ y < GRID_HEIGHT) && cellAt g x y

/-- One `count++` guarded by the liveness of a neighbour. -/
def bump (count : Int) (alive : Bool) : Int := if alive then wrapInt (count + 1) else count

/-- The body of the inner loop of `countNeighbors` for the offset `(dx, dy)`. -/
def visit (grid : Grid) (x y dx dy count : Int) : Option Int :=
  if dx = 0 ∧ dy = 0 then some count
  else
    let nx := wrapInt (x + dx)
    let ny := wrapInt (y + dy)
    if nx ≥ 0 ∧ nx < GRID_WIDTH ∧ ny ≥ 0 ∧ ny < GRID_HEIGHT then
      match readCell grid nx ny with
      | none => none
      | some c => if c then some (wrapInt (count + 1)) else some count
    else some count

/-- `1` for an alive cell, `0` for a dead one. -/
def toInt (b : Bool) : Int := if b then 1 else 0

/-- The number of alive in-grid cells among the eight neighbours of `(x, y)`, listed in
the order in which `countNeighbors` visits them. -/
def liveNeighbors (g : Grid) (x y : Int) : Int :=
  toInt (aliveAt g (x + -1) (y + -1)) + toInt (aliveAt g (x + 0) (y + -1))
    + toInt (aliveAt g (x + 1) (y + -1)) + toInt (aliveAt g (x + -1) (y + 0))
    + toInt (aliveAt g (x + 1) (y + 0)) + toInt (aliveAt g (x + -1) (y + 1))
    + toInt (aliveAt g (x + 0) (y + 1)) + toInt (aliveAt g (x + 1) (y + 1))

/-- The value `updateGrid` writes to cell `(x, y)` of `nextGrid`. -/
def nextCell (g : Grid) (x y : Int) : Bool :=
  if cellAt g x y then decide (liveNeighbors g x y = 2 ∨ liveNeighbors g x y = 3)
  else decide (liveNeighbors g x y = 3)

/-- The next generation of a grid, cell by cell. -/
def stepGrid (g : Grid) : Grid := gridOf (nextCell g)

/-- The grid written by `randomSeed` from the draws of one call. -/
def seededGrid (draws : Nat → Int) : Grid :=
  gridOf (fun x y => decide (draws (y * GRID_WIDTH + x).toNat < 30))


/-! ## Spec-side definitions -/

/-- The eight neighbour offsets in the words of the specification: all `(dx, dy)` with
`dx, dy ∈ {-1, 0, 1}` other than `(0, 0)`. -/
def neighbourOffsets : List (Int × Int) :=
  (List.product [-1, 0, 1] [-1, 0, 1]).filter (fun p => decide (p ≠ ((0 : Int), (0 : Int))))

/-- The neighbour count in the words of the specification: the number of positions
`(x + dx, y + dy)`, over the eight offsets, that lie inside `[0, 80) x [0, 60)` and hold an
alive cell of `g`. No wrapping of any kind is applied to the coordinates. -/
def aliveNeighbourCount (g : Grid) (x y : Int) : Nat :=
  neighbourOffsets.countP (fun p =>
    decide (0 ≤ x + p.1 ∧ x + p.1 < 80 ∧ 0 ≤ y + p.2 ∧ y + p.2 < 60)
      && (readCell g (x + p.1) (y + p.2) == some true))

/-! ## Well-formed sessions and the frame as a total function -/

/-- A session all of whose grids (live grid, `nextGrid` buffer, history snapshots) have
60 rows of 80 cells. -/
def SessionWF (s : Session) : Prop :=
  WellFormed s.grid ∧ WellFormed s.nextGrid ∧ ∀ h ∈ s.history, WellFormed h

/-- Effect of `handleDraw` when no access is out of range. -/
def drawPure (s : Session) (i : Input) : Session :=
  if i.mouseLeftDown ∧ Int.tdiv i.mouseX CELL_SIZE ≥ 0 ∧ Int.tdiv i.mouseX CELL_SIZE < GRID_WIDTH
      ∧ Int.tdiv i.mouseY CELL_SIZE ≥ 0 ∧ Int.tdiv i.mouseY CELL_SIZE < GRID_HEIGHT then
    { s with
      grid := setCell s.grid (Int.tdiv i.mouseX CELL_SIZE) (Int.tdiv i.mouseY CELL_SIZE) true }
  else s

/-- Effect of `handleErase` when no access is out of range. -/
def erasePure (s : Session) (i : Input) : Session :=
  if i.mouseRightDown ∧ Int.tdiv i.mouseX CELL_SIZE ≥ 0 ∧ Int.tdiv i.mouseX CELL_SIZE < GRID_WIDTH
      ∧ Int.tdiv i.mouseY CELL_SIZE ≥ 0 ∧ Int.tdiv i.mouseY CELL_SIZE < GRID_HEIGHT then
    { s with
      grid := setCell s.grid (Int.tdiv i.mouseX CELL_SIZE) (Int.tdiv i.mouseY CELL_SIZE) false }
  else s

/-- Effect of `handleStepForward` when no access is out of range. -/
def stepForwardPure (s : Session) (i : Input) : Session :=
  if s.paused && i.keyRight then
    { s with history := pushHistory s.history s.grid, grid := stepGrid s.grid,
             nextGrid := stepGrid s.grid }
  else s

/-- Effect of `handleClear` when no access is out of range. -/
def clearPure (s : Session) (i : Input) : Session :=
  if i.keyC then { s with grid := emptyGrid, history := [] } else s

/-- Effect of `handleEscape` when no access is out of range. -/
def escapePure (s : Session) (i : Input) : Session :=
  if i.keyEscape then
    { s with currentState := GameState.MAIN_MENU, paused := true, grid := emptyGrid,
             history := [] }
  else s

/-- Effect of `autoAdvance` when no access is out of range. -/
def autoPure (s : Session) : Session :=
  if !s.paused then
    if wrapInt (s.frameCounter + 1) ≥ 6 then
      { s with history := pushHistory s.history s.grid, grid := stepGrid s.grid,
               nextGrid := stepGrid s.grid, frameCounter := 0 }
    else { s with frameCounter := wrapInt (s.frameCounter + 1) }
  else s

/-- Effect of the update half of a SIMULATION frame when no access is out of range. -/
def simulationPure (s : Session) (i : Input) : Session :=
  autoPure (escapePure (clearPure (handleStepBackward
    (stepForwardPure (handlePause (erasePure (drawPure s i) i) i) i) i) i) i)

/-- Effect of `updateFrame` when no access is out of range. -/
def updatePure (s : Session) (i : Input) : Session :=
  match s.currentState with
  | GameState.MAIN_MENU => s
  | GameState.SEED_MENU => s
  | GameState.SIMULATION => simulationPure s i

/-- Whether the BLANK button is clicked in this frame. -/
def blankClicked (i : Input) : Bool :=
  drawButton i (isMouseOver i ((SCREEN_WIDTH - 300) / 2) 220 300 60)

/-- Whether the RANDOM SEED button is clicked in this frame. -/
def randomClicked (i : Input) : Bool :=
  drawButton i (isMouseOver i ((SCREEN_WIDTH - 300) / 2) 300 300 60)

/-- Whether the START button is clicked in this frame. -/
def startClicked (i : Input) : Bool :=
  drawButton i (isMouseOver i ((SCREEN_WIDTH - 300) / 2) 250 300 60)

/-- Whether the QUIT button is clicked in this frame. -/
def quitClicked (i : Input) : Bool :=
  drawButton i (isMouseOver i ((SCREEN_WIDTH - 300) / 2) 330 300 60)

/-- Effect of `chooseBlank` when no access is out of range. -/
def blankPure (s : Session) : Session :=
  { s with grid := emptyGrid, history := [], currentState := GameState.SIMULATION,
           paused := false }

/-- Effect of `chooseRandom` when no access is out of range. -/
def randomPure (s : Session) (i : Input) : Session :=
  { s with grid := seededGrid i.draws, history := [], currentState := GameState.SIMULATION,
           paused := false }

/-- Effect of `drawSeedMenu` when no access is out of range. -/
def seedMenuPure (s : Session) (i : Input) : Session :=
  let s1 := if blankClicked i then blankPure s else s
  let s2 := if randomClicked i then randomPure s1 i else s1
  if i.keyEscape then { s2 with currentState := GameState.MAIN_MENU } else s2

/-- Effect of `drawFrame` when no access is out of range. -/
def drawFramePure (s : Session) (i : Input) : Outcome :=
  match s.currentState with
  | GameState.MAIN_MENU => drawMainMenu s i
  | GameState.SEED_MENU => Outcome.running (seedMenuPure s i)
  | GameState.SIMULATION => Outcome.running s

/-- Effect of `tick` when no access is out of range. -/
def tickPure (s : Session) (i : Input) : Outcome :=
  drawFramePure (updatePure s i) i

/-! ## Inputs used in statements -/

/-- A frame in which nothing is pressed: no mouse button, no key; mouse at the origin. -/
def idleInput : Input where
  mouseLeftDown := false
  mouseRightDown := false
  mouseLeftPressed := false
  mouseX := 0
  mouseY := 0
  keySpace := false
  keyRight := false
  keyLeft := false
  keyC := false
  keyEscape := false
  draws := fun _ => 0

/-- A frame with no draw, erase, pause toggle, clear or escape command: at most the two
step keys are pressed. -/
def OnlyStepKeys (i : Input) : Prop :=
  i.mouseLeftDown = false ∧ i.mouseRightDown = false ∧ i.keySpace = false ∧
    i.keyC = false ∧ i.keyEscape = false

/-- The session entered on a blank seed, paused by the user: a paused SIMULATION state
with an all-dead grid and an empty history. -/
def pausedBlankSession : Session :=
  { initialSession with currentState := GameState.SIMULATION }

/-- A frame in which only RIGHT is pressed. -/
def stepForwardInput : Input := { idleInput with keyRight := true }

/-- A frame in which only LEFT is pressed. -/
def stepBackwardInput : Input := { idleInput with keyLeft := true }

/-- A frame in which RIGHT and LEFT are both pressed. -/
def stepBothInput : Input := { idleInput with keyRight := true, keyLeft := true }

/-- A frame in which the left mouse button goes down at pixel `(400, 280)`, the middle of
the START button of the main menu, and nothing else is pressed. -/
def clickStartInput : Input :=
  { idleInput with mouseLeftDown := true, mouseLeftPressed := true, mouseX := 400,
                   mouseY := 280 }

/-- A frame with no command at all: no mouse button held, no key pressed. -/
def NoCommand (i : Input) : Prop :=
  i.mouseLeftDown = false ∧ i.mouseRightDown = false ∧ i.keySpace = false ∧
    i.keyRight = false ∧ i.keyLeft = false ∧ i.keyC = false ∧ i.keyEscape = false

/-- A SIMULATION session that is running (not paused) on a blank grid, counter at 0. -/
def runningBlankSession : Session :=
  { initialSession with currentState := GameState.SIMULATION, paused := false }

/-- A well-formed session showing the seed menu: the initial state after START. -/
def seedMenuSession : Session :=
  { initialSession with currentState := GameState.SEED_MENU }

/-- A frame in which the left mouse button goes down at pixel `(400, 250)`, the middle of
the BLANK button of the seed menu, while ESCAPE is pressed. -/
def blankEscapeInput : Input :=
  { idleInput with mouseLeftDown := true, mouseLeftPressed := true, mouseX := 400,
                   mouseY := 250, keyEscape := true }

/-- A frame in which the left mouse button goes down at pixel `(400, 250)`, the middle of
the BLANK button of the seed menu, and nothing else is pressed. -/
def clickBlankInput : Input :=
  { idleInput with mouseLeftDown := true, mouseLeftPressed := true, mouseX := 400,
                   mouseY := 250 }

/-- The session just before the clear step of a SIMULATION frame: after draw, erase, pause
toggle, step forward and step backward. -/
def beforeClear (s : Session) (i : Input) : Session :=
  handleStepBackward (stepForwardPure (handlePause (erasePure (drawPure s i) i) i) i) i

/-- A frame in which ESCAPE is pressed while the left mouse button goes down at pixel
`(400, 280)`, where the main menu draws its START button. -/
def escapeClickStartInput : Input :=
  { idleInput with mouseLeftDown := true, mouseLeftPressed := true, mouseX := 400,
                   mouseY := 280, keyEscape := true }

/-- A frame in which only ESCAPE is pressed. -/
def escapeInput : Input := { idleInput with keyEscape := true }

/-- A frame in which only C is pressed. -/
def clearInput : Input := { idleInput with keyC := true }

/-- A running (not paused) blank SIMULATION session whose frame counter stands at 5, as
after five idle frames: the next frame auto-advances. -/
def runningBlankSessionAt5 : Session :=
  { initialSession with currentState := GameState.SIMULATION, paused := false,
                        frameCounter := 5 }

/-- The session after a step forward from a paused state. -/
def afterForward (s : Session) : Session :=
  { s with history := pushHistory s.history s.grid, grid := stepGrid s.grid,
           nextGrid := stepGrid s.grid }

/-- The session after a step forward followed by a step backward from a paused state. -/
def afterForwardBack (s : Session) : Session :=
  { s with history := (pushHistory s.history s.grid).dropLast, grid := s.grid,
           nextGrid := stepGrid s.grid }

/-! ## Patterns placed on an otherwise dead grid -/

/-- The standard 5-cell glider, as offsets `(dx, dy)` from the top-left corner of its
3 x 3 box (`y` grows downwards, as on the screen):
```
.O.
..O
OOO
```
-/
def gliderCells : List (Int × Int) := [(1, 0), (2, 1), (0, 2), (1, 2), (2, 2)]

/-- The glider one generation later, in the same frame of reference. -/
def gliderGen1 : List (Int × Int) := [(0, 1), (2, 1), (1, 2), (2, 2), (1, 3)]

/-- The glider two generations later. -/
def gliderGen2 : List (Int × Int) := [(2, 1), (0, 2), (2, 2), (1, 3), (2, 3)]

/-- The glider three generations later. -/
def gliderGen3 : List (Int × Int) := [(1, 1), (2, 2), (3, 2), (1, 3), (2, 3)]

/-- The glider four generations later: `gliderCells` moved by `(1, 1)`. -/
def gliderGen4 : List (Int × Int) := [(2, 1), (3, 2), (1, 3), (2, 3), (3, 3)]

/-- Whether the offset `(u, v)` belongs to a pattern. -/
def hasCell (cells : List (Int × Int)) (u v : Int) : Bool := decide ((u, v) ∈ cells)

/-- The 80x60 grid that is dead except for the pattern `cells` placed with its origin at
`(ox, oy)`. -/
def patternGrid (cells : List (Int × Int)) (ox oy : Int) : Grid :=
  gridOf (fun x y => hasCell cells (x - ox) (y - oy))

/-- The 80x60 grid that is dead except for a glider whose 3 x 3 box has its top-left corner
at `(ox, oy)`. -/
def gliderGrid (ox oy : Int) : Grid := patternGrid gliderCells ox oy

/-- Number of cells of a pattern among the eight neighbours of the offset `(u, v)`. -/
def patternNeighbors (cells : List (Int × Int)) (u v : Int) : Int :=
  toInt (hasCell cells (u + -1) (v + -1)) + toInt (hasCell cells (u + 0) (v + -1))
    + toInt (hasCell cells (u + 1) (v + -1)) + toInt (hasCell cells (u + -1) (v + 0))
    + toInt (hasCell cells (u + 1) (v + 0)) + toInt (hasCell cells (u + -1) (v + 1))
    + toInt (hasCell cells (u + 0) (v + 1)) + toInt (hasCell cells (u + 1) (v + 1))

/-- The B3/S23 rule on a pattern in the unbounded plane. -/
def lifeRule (cells : List (Int × Int)) (u v : Int) : Bool :=
  if hasCell cells u v then
    decide (patternNeighbors cells u v = 2 ∨ patternNeighbors cells u v = 3)
  else decide (patternNeighbors cells u v = 3)

/-- A pattern contained in the 4 x 4 box of offsets `0..3`. -/
def InBox (cells : List (Int × Int)) : Prop :=
  ∀ p ∈ cells, 0 ≤ p.1 ∧ p.1 ≤ 3 ∧ 0 ≤ p.2 ∧ p.2 ≤ 3

instance (cells : List (Int × Int)) : Decidable (InBox cells) := by
  unfold InBox; infer_instance

/-- The three in-grid neighbours of the corner cell `(0, 0)`. -/
def cornerNeighbours : List (Int × Int) := [(1, 0), (0, 1), (1, 1)]

/-- Whether `randomSeed`, fed the draw `d` for every cell, leaves cell `(x, y)` alive. -/
def aliveAfterSeed (grid : Grid) (x y d : Int) : Bool :=
  (randomSeed (fun _ => d) grid).bind (fun seeded => readCell seeded x y) == some true

/-- The number of draws `d` in the inclusive range `0..100` of `GetRandomValue(0, 100)` for
which `randomSeed` leaves cell `(x, y)` alive. -/
def aliveDraws (grid : Grid) (x y : Int) : Nat :=
  (List.range 101).countP (fun (d : Nat) => aliveAfterSeed grid x y (d : Int))

/-- The frame counter after one frame: advanced modulo 6 when the frame is a SIMULATION
frame without ESCAPE in which `paused` is false once the pause toggle is applied, and left
alone otherwise. -/
def nextFrameCounter (s : Session) (i : Input) : Int :=
  if s.currentState = GameState.SIMULATION ∧ i.keyEscape = false ∧
      (handlePause s i).paused = false then
    (s.frameCounter + 1) % 6
  else s.frameCounter
/-! # Lemmas -/

/-! ### Basic facts on accesses -/

theorem wellFormed_row {g : Grid} (hg : WellFormed g) {j : Nat} (hj : j < 60) :
    ∃ row, g[j]? = some row ∧ row.length = 80 := by
  have hlt : j < g.length := by rw [hg.1]; exact hj
  exact ⟨g[j], List.getElem?_eq_getElem hlt, hg.2 _ (List.getElem_mem hlt)⟩

theorem readCell_eq {g : Grid} (hg : WellFormed g) {x y : Int}
    (hx0 : 0 ≤ x) (hx : x < 80) (hy0 : 0 ≤ y) (hy : y < 60) :
    readCell g x y = some (cellAt g x y) := by
  obtain ⟨row, hrow, hlen⟩ := wellFormed_row hg (j := y.toNat) (by omega)
  have hxl : x.toNat < row.length := by omega
  unfold readCell cellAt
  rw [if_neg (by omega)]
  simp [hrow, List.getD_eq_getElem?_getD, List.getElem?_eq_getElem hxl]

theorem writeCell_eq {g : Grid} (hg : WellFormed g) {x y : Int}
    (hx0 : 0 ≤ x) (hx : x < 80) (hy0 : 0 ≤ y) (hy : y < 60) (v : Bool) :
    writeCell g x y v = some (setCell g x y v) := by
  obtain ⟨row, hrow, hlen⟩ := wellFormed_row hg (j := y.toNat) (by omega)
  have hxl : x.toNat < row.length := by omega
  unfold writeCell setCell
  rw [if_neg (by omega)]
  simp [hrow, List.getD_eq_getElem?_getD, hxl]

theorem setCell_wellFormed {g : Grid} (hg : WellFormed g) (x : Int) {y : Int}
    (hy0 : 0 ≤ y) (hy : y < 60) (v : Bool) : WellFormed (setCell g x y v) := by
  obtain ⟨r, hr, hlen⟩ := wellFormed_row hg (j := y.toNat) (by omega)
  refine ⟨by simp [setCell, hg.1], ?_⟩
  intro row hrow
  unfold setCell at hrow
  rcases List.mem_or_eq_of_mem_set hrow with h | h
  · exact hg.2 row h
  · subst h
    simp [List.getD_eq_getElem?_getD, hr, hlen]

theorem cellAt_setCell {g : Grid} (hg : WellFormed g) {x y : Int}
    (hx0 : 0 ≤ x) (hx : x < 80) (hy0 : 0 ≤ y) (hy : y < 60) (v : Bool)
    {x1 y1 : Int} (hx1 : 0 ≤ x1) (hy1 : 0 ≤ y1) :
    cellAt (setCell g x y v) x1 y1 = if x1 = x ∧ y1 = y then v else cellAt g x1 y1 := by
  obtain ⟨r, hr, hlen⟩ := wellFormed_row hg (j := y.toNat) (by omega)
  have hyl : y.toNat < g.length := by rw [hg.1]; omega
  unfold cellAt setCell
  simp only [List.getD_eq_getElem?_getD, hr, Option.getD_some]
  by_cases hye : y1 = y
  · subst hye
    simp only [List.getElem?_set_self hyl, Option.getD_some, and_true]
    by_cases hxe : x1 = x
    · subst hxe
      simp [List.getElem?_set_self (show x1.toNat < r.length by omega)]
    · have hne : x.toNat ≠ x1.toNat := by omega
      simp [List.getElem?_set_ne hne, hxe, hr]
  · have hne : y.toNat ≠ y1.toNat := by omega
    simp [List.getElem?_set_ne hne, hye]

theorem gridOf_wellFormed (f : Int → Int → Bool) : WellFormed (gridOf f) := by
  refine ⟨by simp [gridOf], ?_⟩
  intro row hrow
  simp only [gridOf, List.mem_map] at hrow
  obtain ⟨y, -, rfl⟩ := hrow
  simp

theorem cellAt_gridOf (f : Int → Int → Bool) {x y : Int}
    (hx0 : 0 ≤ x) (hx : x < 80) (hy0 : 0 ≤ y) (hy : y < 60) :
    cellAt (gridOf f) x y = f x y := by
  have hxl : x.toNat < 80 := by omega
  have hyl : y.toNat < 60 := by omega
  have hxe : ((x.toNat : Nat) : Int) = x := Int.toNat_of_nonneg hx0
  have hye : ((y.toNat : Nat) : Int) = y := Int.toNat_of_nonneg hy0
  simp [cellAt, gridOf, List.getD_eq_getElem?_getD, List.getElem?_map,
    List.getElem?_range hxl, List.getElem?_range hyl, hxe, hye]

/-- Two well-formed grids with the same cells are equal. -/
theorem grid_ext {g h : Grid} (hg : WellFormed g) (hh : WellFormed h)
    (hc : ∀ x y : Int, 0 ≤ x → x < 80 → 0 ≤ y → y < 60 → cellAt g x y = cellAt h x y) :
    g = h := by
  apply List.ext_getElem (by rw [hg.1, hh.1])
  intro j hj1 hj2
  have hj : j < 60 := by rw [hg.1] at hj1; exact hj1
  have hl1 : (g[j]).length = 80 := hg.2 _ (List.getElem_mem hj1)
  have hl2 : (h[j]).length = 80 := hh.2 _ (List.getElem_mem hj2)
  apply List.ext_getElem (by rw [hl1, hl2])
  intro k hk1 hk2
  have hk : k < 80 := by rw [hl1] at hk1; exact hk1
  have := hc (k : Int) (j : Int) (by omega) (by omega) (by omega) (by omega)
  simpa [cellAt, List.getD_eq_getElem?_getD, List.getElem?_eq_getElem hj1,
    List.getElem?_eq_getElem hj2, List.getElem?_eq_getElem hk1,
    List.getElem?_eq_getElem hk2] using this

/-! ### Loops -/

theorem forLoop_zero {σ : Type} (body : Int → σ → Option σ) (init : σ) :
    forLoop ((0 : Nat) : Int) body init = some init := by
  simp [forLoop]

theorem forLoop_succ {σ : Type} (k : Nat) (body : Int → σ → Option σ) (init : σ) :
    forLoop ((k + 1 : Nat) : Int) body init
      = (forLoop (k : Int) body init).bind (body (k : Int)) := by
  simp only [forLoop, Int.toNat_ofNat, List.range_succ, List.foldlM_append]
  cases List.foldlM (fun st (j : Nat) => body (j : Int) st) init (List.range k) <;> simp

/-- A row loop whose body writes `f x y` to cell `(x, y)` rewrites the first `k` cells of
row `y` and nothing else. -/
theorem rowLoop_spec (body : Int → Grid → Option Grid) (f : Int → Int → Bool) {y : Int}
    (hy0 : 0 ≤ y) (hy : y < 60)
    (hbody : ∀ (x : Int) (n : Grid), 0 ≤ x → x < 80 → WellFormed n →
      body x n = some (setCell n x y (f x y)))
    (n : Grid) (hn : WellFormed n) (k : Nat) (hk : k ≤ 80) :
    ∃ m, forLoop (k : Int) body n = some m ∧ WellFormed m ∧
      ∀ x1 y1 : Int, 0 ≤ x1 → 0 ≤ y1 →
        cellAt m x1 y1 = if y1 = y ∧ x1 < k then f x1 y else cellAt n x1 y1 := by
  induction k with
  | zero =>
    refine ⟨n, forLoop_zero _ _, hn, ?_⟩
    intro x1 y1 hx1 hy1
    rw [if_neg (by omega)]
  | succ k ih =>
    obtain ⟨m, hm, hmw, hmc⟩ := ih (by omega)
    refine ⟨setCell m k y (f k y), ?_, setCell_wellFormed hmw _ hy0 hy _, ?_⟩
    · rw [forLoop_succ, hm]
      exact hbody k m (by omega) (by omega) hmw
    · intro x1 y1 hx1 hy1
      rw [cellAt_setCell hmw (by omega) (by omega) hy0 hy _ hx1 hy1, hmc x1 y1 hx1 hy1]
      by_cases h1 : x1 = (k : Int) ∧ y1 = y
      · obtain ⟨rfl, rfl⟩ := h1
        simp
      · rw [if_neg h1]
        by_cases h2 : y1 = y ∧ x1 < (k : Int)
        · rw [if_pos h2, if_pos ⟨h2.1, by push_cast; omega⟩]
        · rw [if_neg h2, if_neg (by push_cast; omega)]

/-- The nested loop over all cells (`for y ... for x ...`) whose body writes `f x y`
to cell `(x, y)` of a well-formed grid produces `gridOf f`. -/
theorem fillLoop_eq (body : Int → Int → Grid → Option Grid) (f : Int → Int → Bool)
    (hbody : ∀ (x y : Int) (n : Grid), 0 ≤ x → x < 80 → 0 ≤ y → y < 60 → WellFormed n →
      body x y n = some (setCell n x y (f x y)))
    (n : Grid) (hn : WellFormed n) :
    forLoop GRID_HEIGHT (fun y n => forLoop GRID_WIDTH (fun x n => body x y n) n) n
      = some (gridOf f) := by
  have key : ∀ k : Nat, k ≤ 60 →
      ∃ m, forLoop (k : Int) (fun y n => forLoop GRID_WIDTH (fun x n => body x y n) n) n
          = some m ∧ WellFormed m ∧
        ∀ x1 y1 : Int, 0 ≤ x1 → x1 < 80 → 0 ≤ y1 →
          cellAt m x1 y1 = if y1 < k then f x1 y1 else cellAt n x1 y1 := by
    intro k
    induction k with
    | zero =>
      intro _
      refine ⟨n, forLoop_zero _ _, hn, ?_⟩
      intro x1 y1 _ _ hy1
      rw [if_neg (by omega)]
    | succ k ih =>
      intro hk
      obtain ⟨m, hm, hmw, hmc⟩ := ih (by omega)
      obtain ⟨m2, hm2, hm2w, hm2c⟩ :=
        rowLoop_spec (fun x n => body x (k : Int) n) f (y := (k : Int)) (by omega) (by omega)
          (fun x n hx0 hx hnw => hbody x k n hx0 hx (by omega) (by omega) hnw) m hmw 80
          (le_refl _)
      refine ⟨m2, ?_, hm2w, ?_⟩
      · rw [forLoop_succ, hm]
        exact hm2
      · intro x1 y1 hx0 hx hy1
        rw [hm2c x1 y1 hx0 hy1, hmc x1 y1 hx0 hx hy1]
        by_cases h1 : y1 = (k : Int)
        · subst h1
          rw [if_pos ⟨rfl, by omega⟩, if_pos (by push_cast; omega)]
        · rw [if_neg (by omega)]
          by_cases h2 : y1 < (k : Int)
          · rw [if_pos h2, if_pos (by push_cast; omega)]
          · rw [if_neg h2, if_neg (by push_cast; omega)]
  obtain ⟨m, hm, hmw, hmc⟩ := key 60 (le_refl _)
  have hgm : m = gridOf f := by
    apply grid_ext hmw (gridOf_wellFormed f)
    intro x y hx0 hx hy0 hy
    rw [hmc x y hx0 hx hy0, if_pos (by omega), cellAt_gridOf f hx0 hx hy0 hy]
  rw [← hgm]
  exact hm

/-! ### countNeighbors on a well-formed grid -/

theorem countNeighbors_unfold (g : Grid) (x y : Int) :
    countNeighbors g x y
      = [-1, 0, 1].foldlM (fun count dy =>
          [-1, 0, 1].foldlM (fun count dx => visit g x y dx dy count) count) (0 : Int) := rfl

theorem visit_eq {g : Grid} (hg : WellFormed g) {x y : Int} (hx : isInt32 x) (hy : isInt32 y)
    (dx dy : Int) (hdx : -1 ≤ dx ∧ dx ≤ 1) (hdy : -1 ≤ dy ∧ dy ≤ 1) (hne : ¬ (dx = 0 ∧ dy = 0))
    (count : Int) :
    visit g x y dx dy count = some (bump count (aliveAt g (x + dx) (y + dy))) := by
  unfold isInt32 INT_MIN INT_MAX at hx hy
  unfold visit
  rw [if_neg hne]
  simp only [GRID_WIDTH, GRID_HEIGHT]
  by_cases hin : 0 ≤ x + dx ∧ x + dx < 80 ∧ 0 ≤ y + dy ∧ y + dy < 60
  · have hwx : wrapInt (x + dx) = x + dx := by unfold wrapInt; omega
    have hwy : wrapInt (y + dy) = y + dy := by unfold wrapInt; omega
    rw [hwx, hwy, if_pos (by omega), readCell_eq hg hin.1 hin.2.1 hin.2.2.1 hin.2.2.2]
    have hal : aliveAt g (x + dx) (y + dy) = cellAt g (x + dx) (y + dy) := by
      simp [aliveAt, GRID_WIDTH, GRID_HEIGHT, hin]
    rw [hal]
    cases cellAt g (x + dx) (y + dy) <;> simp [bump]
  · have hal : aliveAt g (x + dx) (y + dy) = false := by
      simp only [aliveAt, GRID_WIDTH, GRID_HEIGHT, Bool.and_eq_false_imp, decide_eq_true_eq]
      intro h
      exact absurd ⟨h.1, h.2.1, h.2.2.1, h.2.2.2⟩ hin
    rw [hal, if_neg (by unfold wrapInt; omega)]
    simp [bump]

theorem bump_chain : ∀ a1 a2 a3 a4 a5 a6 a7 a8 : Bool,
    bump (bump (bump (bump (bump (bump (bump (bump 0 a1) a2) a3) a4) a5) a6) a7) a8
      = toInt a1 + toInt a2 + toInt a3 + toInt a4 + toInt a5 + toInt a6 + toInt a7
        + toInt a8 := by
  decide

/-- On a well-formed grid `countNeighbors` makes no out-of-range access and returns the
number of alive in-grid neighbours. -/
theorem countNeighbors_eq {g : Grid} (hg : WellFormed g) {x y : Int}
    (hx : isInt32 x) (hy : isInt32 y) :
    countNeighbors g x y = some (liveNeighbors g x y) := by
  rw [countNeighbors_unfold]
  simp only [List.foldlM_cons, List.foldlM_nil]
  have h00 : ∀ c : Int, visit g x y 0 0 c = some c := fun c => by simp [visit]
  simp only [h00, Option.pure_def, Option.bind_eq_bind, Option.some_bind,
    visit_eq hg hx hy (-1) (-1) (by decide) (by decide) (by decide),
    visit_eq hg hx hy (0) (-1) (by decide) (by decide) (by decide),
    visit_eq hg hx hy (1) (-1) (by decide) (by decide) (by decide),
    visit_eq hg hx hy (-1) (0) (by decide) (by decide) (by decide),
    visit_eq hg hx hy (1) (0) (by decide) (by decide) (by decide),
    visit_eq hg hx hy (-1) (1) (by decide) (by decide) (by decide),
    visit_eq hg hx hy (0) (1) (by decide) (by decide) (by decide),
    visit_eq hg hx hy (1) (1) (by decide) (by decide) (by decide)]
  rw [bump_chain]
  rfl

/-! ### updateGrid, clearGrid and randomSeed on well-formed grids -/

theorem isInt32_of_bounds {v : Int} (h0 : 0 ≤ v) (h : v < 80) : isInt32 v := by
  unfold isInt32 INT_MIN INT_MAX; omega

theorem updateGrid_eq {g n : Grid} (hg : WellFormed g) (hn : WellFormed n) :
    updateGrid g n = some (stepGrid g, stepGrid g) := by
  have h := fillLoop_eq (fun x y nextGrid =>
      match countNeighbors g x y with
      | none => none
      | some neighbors =>
        match readCell g x y with
        | none => none
        | some alive =>
          if alive then
            writeCell nextGrid x y (decide (neighbors = 2 ∨ neighbors = 3))
          else
            writeCell nextGrid x y (decide (neighbors = 3))) (nextCell g)
    (by
      intro x y m hx0 hx hy0 hy hm
      simp only [countNeighbors_eq hg (isInt32_of_bounds hx0 hx)
        (isInt32_of_bounds hy0 (by omega)), readCell_eq hg hx0 hx hy0 hy, nextCell]
      cases cellAt g x y <;> simp [writeCell_eq hm hx0 hx hy0 hy]) n hn
  have key : ∀ o : Option Grid, o = some (gridOf (nextCell g)) →
      (match o with
        | none => none
        | some m => some (m, m)) = some (stepGrid g, stepGrid g) := by
    intro o ho
    subst ho
    rfl
  exact key _ h

theorem emptyGrid_wellFormed : WellFormed emptyGrid := by
  refine ⟨by simp [emptyGrid, GRID_HEIGHT], ?_⟩
  intro row hrow
  rw [emptyGrid, List.mem_replicate] at hrow
  rw [hrow.2]
  simp [GRID_WIDTH]

theorem cellAt_emptyGrid (x y : Int) : cellAt emptyGrid x y = false := by
  unfold cellAt emptyGrid
  simp only [List.getD_eq_getElem?_getD, List.getElem?_replicate]
  split_ifs
  · simp only [Option.getD_some, List.getElem?_replicate]
    split_ifs <;> rfl
  · rfl

theorem gridOf_false : gridOf (fun _ _ => false) = emptyGrid := by
  apply grid_ext (gridOf_wellFormed _) emptyGrid_wellFormed
  intro x y hx0 hx hy0 hy
  rw [cellAt_gridOf _ hx0 hx hy0 hy, cellAt_emptyGrid]

theorem clearGrid_eq {g : Grid} (hg : WellFormed g) : clearGrid g = some emptyGrid := by
  have h := fillLoop_eq (fun x y grid => writeCell grid x y false) (fun _ _ => false)
    (fun x y m hx0 hx hy0 hy hm => writeCell_eq hm hx0 hx hy0 hy false) g hg
  rw [gridOf_false] at h
  exact h

theorem randomSeed_eq (draws : Nat → Int) {g : Grid} (hg : WellFormed g) :
    randomSeed draws g = some (seededGrid draws) :=
  fillLoop_eq (fun x y grid => writeCell grid x y (decide (draws (y * GRID_WIDTH + x).toNat < 30)))
    _ (fun _ _ _ hx0 hx hy0 hy hm => writeCell_eq hm hx0 hx hy0 hy _) g hg

theorem stepGrid_wellFormed (g : Grid) : WellFormed (stepGrid g) := gridOf_wellFormed _

theorem seededGrid_wellFormed (draws : Nat → Int) : WellFormed (seededGrid draws) :=
  gridOf_wellFormed _



/-! ### The neighbour count of the specification -/

theorem neighbourOffsets_eq :
    neighbourOffsets
      = [(-1, -1), (-1, 0), (-1, 1), (0, -1), (0, 1), (1, -1), (1, 0), (1, 1)] := by
  decide

theorem insideAlive_eq_aliveAt {g : Grid} (hg : WellFormed g) (u v : Int) :
    (decide (0 ≤ u ∧ u < 80 ∧ 0 ≤ v ∧ v < 60) && (readCell g u v == some true))
      = aliveAt g u v := by
  unfold aliveAt
  simp only [GRID_WIDTH, GRID_HEIGHT, ge_iff_le]
  by_cases h : 0 ≤ u ∧ u < 80 ∧ 0 ≤ v ∧ v < 60
  · rw [readCell_eq hg h.1 h.2.1 h.2.2.1 h.2.2.2]
    cases cellAt g u v <;> simp [h]
  · simp [h]

theorem toInt_eq_ite (b : Bool) : toInt b = ((if b = true then 1 else 0 : Nat) : Int) := by
  cases b <;> rfl

theorem liveNeighbors_eq_count {g : Grid} (hg : WellFormed g) (x y : Int) :
    liveNeighbors g x y = (aliveNeighbourCount g x y : Int) := by
  unfold aliveNeighbourCount liveNeighbors
  rw [neighbourOffsets_eq]
  simp only [List.countP_cons, List.countP_nil, insideAlive_eq_aliveAt hg, toInt_eq_ite]
  push_cast
  ring

theorem aliveNeighbourCount_le (g : Grid) (x y : Int) : aliveNeighbourCount g x y ≤ 8 := by
  unfold aliveNeighbourCount
  refine le_trans (List.countP_le_length _) ?_
  rw [neighbourOffsets_eq]
  decide

/-! ### The bounded history -/

theorem pushHistory_eq_drop (h : List Grid) (g : Grid) (hh : h.length ≤ 100) :
    pushHistory h g = (h ++ [g]).drop ((h ++ [g]).length - 100) := by
  unfold pushHistory MAX_HISTORY
  simp only [List.length_append, List.length_singleton]
  by_cases hfull : h.length = 100
  · rw [if_pos (by omega), hfull]
    simp
  · rw [if_neg (by omega)]
    have : h.length + 1 - 100 = 0 := by omega
    rw [this, List.drop_zero]

theorem pushHistory_length_le (h : List Grid) (g : Grid) (hh : h.length ≤ 100) :
    (pushHistory h g).length ≤ 100 := by
  rw [pushHistory_eq_drop h g hh]
  simp only [List.length_drop, List.length_append, List.length_singleton]
  omega

theorem foldl_pushHistory (gs : List Grid) :
    ∀ h : List Grid, h.length ≤ 100 →
      gs.foldl pushHistory h = (h ++ gs).drop ((h ++ gs).length - 100) := by
  induction gs with
  | nil =>
    intro h hh
    have : h.length - 100 = 0 := by omega
    simp [this]
  | cons g gs ih =>
    intro h hh
    rw [List.foldl_cons, ih _ (pushHistory_length_le h g hh), pushHistory_eq_drop h g hh]
    have hsplit : h ++ g :: gs = (h ++ [g]) ++ gs := by simp
    rw [hsplit]
    have hle : (h ++ [g]).length - 100 ≤ (h ++ [g]).length := Nat.sub_le _ _
    rw [← List.drop_append_of_le_length hle, List.drop_drop]
    have key : ∀ (a b : Nat) (l : List Grid), a = b → l.drop a = l.drop b :=
      fun a b l hab => by rw [hab]
    apply key
    simp only [List.length_drop, List.length_append, List.length_singleton, List.length_cons]
    omega

/-! ### The frame on well-formed sessions -/

theorem forLoop_some {σ : Type} (body : Int → σ → Option σ) (n : Nat)
    (hbody : ∀ (k : Int) (st : σ), 0 ≤ k → k < n → ∃ st1, body k st = some st1) (init : σ) :
    ∃ r, forLoop (n : Int) body init = some r := by
  induction n with
  | zero => exact ⟨init, forLoop_zero _ _⟩
  | succ n ih =>
    obtain ⟨r, hr⟩ := ih (fun k st h0 hk => hbody k st h0 (by push_cast; omega))
    obtain ⟨r1, hr1⟩ := hbody n r (by omega) (by push_cast; omega)
    exact ⟨r1, by rw [forLoop_succ, hr]; exact hr1⟩

theorem renderCells_some {g : Grid} (hg : WellFormed g) : ∃ rects, renderCells g = some rects := by
  unfold renderCells
  apply forLoop_some _ 60
  intro y rects hy0 hy
  apply forLoop_some _ 80
  intro x rects hx0 hx
  rw [readCell_eq hg hx0 (by omega) hy0 (by omega)]
  cases cellAt g x y <;> simp

theorem pushHistory_mem {h : List Grid} {g a : Grid} (ha : a ∈ pushHistory h g) :
    a ∈ h ∨ a = g := by
  unfold pushHistory at ha
  simp only at ha
  split_ifs at ha
  · have := List.mem_of_mem_tail ha
    simpa using this
  · simpa using ha

theorem handleDraw_eq {s : Session} (hs : SessionWF s) (i : Input) :
    handleDraw s i = some (drawPure s i) := by
  unfold handleDraw drawPure
  by_cases hd : i.mouseLeftDown = true
  · by_cases hin : Int.tdiv i.mouseX CELL_SIZE ≥ 0 ∧ Int.tdiv i.mouseX CELL_SIZE < GRID_WIDTH
        ∧ Int.tdiv i.mouseY CELL_SIZE ≥ 0 ∧ Int.tdiv i.mouseY CELL_SIZE < GRID_HEIGHT
    · simp only [hd, if_true, hin, and_self, true_and]
      rw [writeCell_eq hs.1 hin.1 hin.2.1 hin.2.2.1 hin.2.2.2]
    · simp only [hd, if_true, hin, if_false, true_and]
  · simp [hd]

theorem handleErase_eq {s : Session} (hs : SessionWF s) (i : Input) :
    handleErase s i = some (erasePure s i) := by
  unfold handleErase erasePure
  by_cases hd : i.mouseRightDown = true
  · by_cases hin : Int.tdiv i.mouseX CELL_SIZE ≥ 0 ∧ Int.tdiv i.mouseX CELL_SIZE < GRID_WIDTH
        ∧ Int.tdiv i.mouseY CELL_SIZE ≥ 0 ∧ Int.tdiv i.mouseY CELL_SIZE < GRID_HEIGHT
    · simp only [hd, if_true, hin, and_self, true_and]
      rw [writeCell_eq hs.1 hin.1 hin.2.1 hin.2.2.1 hin.2.2.2]
    · simp only [hd, if_true, hin, if_false, true_and]
  · simp [hd]

theorem handleStepForward_eq {s : Session} (hs : SessionWF s) (i : Input) :
    handleStepForward s i = some (stepForwardPure s i) := by
  unfold handleStepForward stepForwardPure
  rw [updateGrid_eq hs.1 hs.2.1]
  split_ifs <;> rfl

theorem handleClear_eq {s : Session} (hs : SessionWF s) (i : Input) :
    handleClear s i = some (clearPure s i) := by
  unfold handleClear clearPure
  rw [clearGrid_eq hs.1]
  split_ifs <;> rfl

theorem handleEscape_eq {s : Session} (hs : SessionWF s) (i : Input) :
    handleEscape s i = some (escapePure s i) := by
  unfold handleEscape escapePure
  rw [clearGrid_eq hs.1]
  split_ifs <;> rfl

theorem autoAdvance_eq {s : Session} (hs : SessionWF s) :
    autoAdvance s = some (autoPure s) := by
  unfold autoAdvance autoPure
  rw [updateGrid_eq hs.1 hs.2.1]
  by_cases hp : (!s.paused) = true
  · by_cases hc : wrapInt (s.frameCounter + 1) ≥ 6
    · simp only [hp, if_true, hc]
    · simp only [hp, if_true, hc, if_false]
  · simp [hp]

theorem pushHistory_wellFormed {h : List Grid} {g : Grid} (hh : ∀ a ∈ h, WellFormed a)
    (hg : WellFormed g) : ∀ a ∈ pushHistory h g, WellFormed a := by
  intro a ha
  rcases pushHistory_mem ha with h1 | h1
  · exact hh a h1
  · rw [h1]; exact hg

theorem drawPure_wf {s : Session} (hs : SessionWF s) (i : Input) : SessionWF (drawPure s i) := by
  unfold drawPure
  split_ifs with h
  · exact ⟨setCell_wellFormed hs.1 _ h.2.2.2.1 h.2.2.2.2 _, hs.2.1, hs.2.2⟩
  · exact hs

theorem erasePure_wf {s : Session} (hs : SessionWF s) (i : Input) :
    SessionWF (erasePure s i) := by
  unfold erasePure
  split_ifs with h
  · exact ⟨setCell_wellFormed hs.1 _ h.2.2.2.1 h.2.2.2.2 _, hs.2.1, hs.2.2⟩
  · exact hs

theorem handlePause_wf {s : Session} (hs : SessionWF s) (i : Input) :
    SessionWF (handlePause s i) := by
  unfold handlePause
  split_ifs
  · exact hs
  · exact hs

theorem stepForwardPure_wf {s : Session} (hs : SessionWF s) (i : Input) :
    SessionWF (stepForwardPure s i) := by
  unfold stepForwardPure
  split_ifs
  · exact ⟨stepGrid_wellFormed _, stepGrid_wellFormed _, pushHistory_wellFormed hs.2.2 hs.1⟩
  · exact hs

theorem handleStepBackward_wf {s : Session} (hs : SessionWF s) (i : Input) :
    SessionWF (handleStepBackward s i) := by
  unfold handleStepBackward
  split_ifs
  · cases hl : s.history.getLast? with
    | none => exact hs
    | some back =>
      refine ⟨hs.2.2 back (List.mem_of_getLast?_eq_some hl), hs.2.1, ?_⟩
      intro a ha
      exact hs.2.2 a (List.mem_of_mem_dropLast ha)
  · exact hs

theorem clearPure_wf {s : Session} (hs : SessionWF s) (i : Input) : SessionWF (clearPure s i) := by
  unfold clearPure
  split_ifs
  · exact ⟨emptyGrid_wellFormed, hs.2.1, by simp⟩
  · exact hs

theorem escapePure_wf {s : Session} (hs : SessionWF s) (i : Input) :
    SessionWF (escapePure s i) := by
  unfold escapePure
  split_ifs
  · exact ⟨emptyGrid_wellFormed, hs.2.1, by simp⟩
  · exact hs

theorem autoPure_wf {s : Session} (hs : SessionWF s) : SessionWF (autoPure s) := by
  unfold autoPure
  split_ifs
  · exact ⟨stepGrid_wellFormed _, stepGrid_wellFormed _, pushHistory_wellFormed hs.2.2 hs.1⟩
  · exact hs
  · exact hs

theorem simulationPure_wf {s : Session} (hs : SessionWF s) (i : Input) :
    SessionWF (simulationPure s i) :=
  autoPure_wf (escapePure_wf (clearPure_wf (handleStepBackward_wf (stepForwardPure_wf
    (handlePause_wf (erasePure_wf (drawPure_wf hs i) i) i) i) i) i) i)

theorem updatePure_wf {s : Session} (hs : SessionWF s) (i : Input) :
    SessionWF (updatePure s i) := by
  unfold updatePure
  split
  · exact hs
  · exact hs
  · exact simulationPure_wf hs i

theorem updateFrame_eq {s : Session} (hs : SessionWF s) (i : Input) :
    updateFrame s i = some (updatePure s i) := by
  unfold updateFrame updatePure
  split
  · rfl
  · rfl
  · have h1 := drawPure_wf hs i
    have h2 := erasePure_wf h1 i
    have h3 := stepForwardPure_wf (handlePause_wf h2 i) i
    have h4 := clearPure_wf (handleStepBackward_wf h3 i) i
    have h5 := escapePure_wf h4 i
    rw [handleDraw_eq hs, Option.some_bind, handleErase_eq h1, Option.some_bind,
      handleStepForward_eq (handlePause_wf h2 i), Option.some_bind,
      handleClear_eq (handleStepBackward_wf h3 i), Option.some_bind,
      handleEscape_eq h4, Option.some_bind, autoAdvance_eq h5]
    rfl

theorem blankPure_wf {s : Session} (hs : SessionWF s) : SessionWF (blankPure s) :=
  ⟨emptyGrid_wellFormed, hs.2.1, by simp [blankPure]⟩

theorem randomPure_wf {s : Session} (hs : SessionWF s) (i : Input) :
    SessionWF (randomPure s i) :=
  ⟨seededGrid_wellFormed _, hs.2.1, by simp [randomPure]⟩

theorem ite_wf {c : Prop} [Decidable c] {a b : Session} (ha : SessionWF a) (hb : SessionWF b) :
    SessionWF (if c then a else b) := by
  split_ifs
  · exact ha
  · exact hb

theorem seedMenuPure_wf {s : Session} (hs : SessionWF s) (i : Input) :
    SessionWF (seedMenuPure s i) := by
  have hb : SessionWF (if blankClicked i then blankPure s else s) := ite_wf (blankPure_wf hs) hs
  have hr := ite_wf (c := randomClicked i = true) (randomPure_wf hb i) hb
  unfold seedMenuPure
  exact ite_wf ⟨hr.1, hr.2.1, hr.2.2⟩ hr

theorem chooseBlank_eq {s : Session} (hs : SessionWF s) :
    chooseBlank s = some (blankPure s) := by
  unfold chooseBlank blankPure
  rw [clearGrid_eq hs.1]

theorem chooseRandom_eq {s : Session} (hs : SessionWF s) (i : Input) :
    chooseRandom s i = some (randomPure s i) := by
  unfold chooseRandom randomPure
  rw [clearGrid_eq hs.1, Option.some_bind, randomSeed_eq i.draws emptyGrid_wellFormed,
    Option.some_bind]

theorem drawSeedMenu_eq {s : Session} (hs : SessionWF s) (i : Input) :
    drawSeedMenu s i = some (seedMenuPure s i) := by
  have hb : (if drawButton i (isMouseOver i ((SCREEN_WIDTH - 300) / 2) 220 300 60) then
      chooseBlank s else some s) = some (if blankClicked i then blankPure s else s) := by
    rw [chooseBlank_eq hs]
    unfold blankClicked
    split_ifs <;> rfl
  have hbw : SessionWF (if blankClicked i then blankPure s else s) :=
    ite_wf (blankPure_wf hs) hs
  have hr : ∀ t : Session, SessionWF t →
      (if drawButton i (isMouseOver i ((SCREEN_WIDTH - 300) / 2) 300 300 60) then
        chooseRandom t i else some t) = some (if randomClicked i then randomPure t i else t) := by
    intro t ht
    rw [chooseRandom_eq ht]
    unfold randomClicked
    split_ifs <;> rfl
  unfold drawSeedMenu seedMenuPure
  simp only [hb, Option.some_bind, hr _ hbw]
  split_ifs <;> rfl

theorem drawFrame_eq {s : Session} (hs : SessionWF s) (i : Input) :
    drawFrame s i = some (drawFramePure s i) := by
  unfold drawFrame drawFramePure
  split
  · rfl
  · rw [drawSeedMenu_eq hs]; rfl
  · obtain ⟨rects, hr⟩ := renderCells_some hs.1
    rw [hr]; rfl

/-- On a well-formed session a frame makes no out-of-range access, and its result is
`tickPure`. -/
theorem tick_eq {s : Session} (hs : SessionWF s) (i : Input) :
    tick s i = some (tickPure s i) := by
  unfold tick tickPure
  rw [updateFrame_eq hs, Option.some_bind, drawFrame_eq (updatePure_wf hs i)]

theorem drawMainMenu_wf {s s1 : Session} (hs : SessionWF s) {i : Input}
    (h : drawMainMenu s i = Outcome.running s1) : SessionWF s1 := by
  unfold drawMainMenu at h
  simp only at h
  split_ifs at h
  · injection h with h; subst h; exact hs
  · injection h with h; subst h; exact hs

theorem tickPure_wf {s s1 : Session} (hs : SessionWF s) {i : Input}
    (h : tickPure s i = Outcome.running s1) : SessionWF s1 := by
  have hu := updatePure_wf hs i
  unfold tickPure drawFramePure at h
  split at h
  · exact drawMainMenu_wf hu h
  · injection h with h; subst h; exact seedMenuPure_wf hu i
  · injection h with h; subst h; exact hu

theorem initialSession_wf : SessionWF initialSession :=
  ⟨emptyGrid_wellFormed, emptyGrid_wellFormed, by simp [initialSession]⟩

/-! ### Step forward and step backward -/

theorem pushHistory_getLast? (h : List Grid) (g : Grid) :
    (pushHistory h g).getLast? = some g := by
  unfold pushHistory MAX_HISTORY
  simp only
  split_ifs with hlen
  · cases h with
    | nil => simp at hlen
    | cons a t => simp
  · simp

theorem pushHistory_dropLast (h : List Grid) (g : Grid) (hh : h.length < 100) :
    (pushHistory h g).dropLast = h := by
  unfold pushHistory MAX_HISTORY
  simp only [List.length_append, List.length_singleton]
  rw [if_neg (by omega)]
  simp

theorem simulationPure_steps {s : Session} {i : Input} (hi : OnlyStepKeys i)
    (hp : s.paused = true) :
    simulationPure s i = handleStepBackward (stepForwardPure s i) i := by
  obtain ⟨h1, h2, h3, h4, h5⟩ := hi
  have hd : drawPure s i = s := by simp [drawPure, h1]
  have he : erasePure s i = s := by simp [erasePure, h2]
  have hq : handlePause s i = s := by simp [handlePause, h3]
  have hpb : (handleStepBackward (stepForwardPure s i) i).paused = true := by
    unfold handleStepBackward stepForwardPure
    split_ifs <;> (try split) <;> simp [hp]
  unfold simulationPure
  rw [hd, he, hq]
  have hc : ∀ t : Session, clearPure t i = t := fun t => by simp [clearPure, h4]
  have hx : ∀ t : Session, escapePure t i = t := fun t => by simp [escapePure, h5]
  rw [hc, hx]
  unfold autoPure
  simp [hpb]

theorem tickPure_simulation {s : Session} (i : Input)
    (hsim : s.currentState = GameState.SIMULATION)
    (hkeep : (simulationPure s i).currentState = GameState.SIMULATION) :
    tickPure s i = Outcome.running (simulationPure s i) := by
  unfold tickPure updatePure drawFramePure
  rw [hsim]
  simp only [hkeep]

theorem stepForwardPure_pressed {s : Session} {i : Input} (hp : s.paused = true)
    (hr : i.keyRight = true) : stepForwardPure s i = afterForward s := by
  simp [stepForwardPure, afterForward, hp, hr]

theorem stepForwardPure_released (s : Session) {i : Input} (hr : i.keyRight = false) :
    stepForwardPure s i = s := by
  simp [stepForwardPure, hr]

theorem handleStepBackward_released (s : Session) {i : Input} (hl : i.keyLeft = false) :
    handleStepBackward s i = s := by
  simp [handleStepBackward, hl]

theorem handleStepBackward_afterForward (s : Session) {j : Input}
    (hp : s.paused = true) (hl : j.keyLeft = true) :
    handleStepBackward (afterForward s) j = afterForwardBack s := by
  simp [handleStepBackward, afterForward, afterForwardBack, hp, hl, pushHistory_getLast?]

/-- Step forward in one frame and step backward in the next, from a paused SIMULATION
state. -/
theorem runTicks_forward_back {s : Session} {iF iB : Input} (hs : SessionWF s)
    (hsim : s.currentState = GameState.SIMULATION) (hp : s.paused = true)
    (hF : OnlyStepKeys iF) (hFr : iF.keyRight = true) (hFl : iF.keyLeft = false)
    (hB : OnlyStepKeys iB) (hBr : iB.keyRight = false) (hBl : iB.keyLeft = true) :
    runTicks s [iF, iB] = some (Outcome.running (afterForwardBack s)) := by
  have e1 : simulationPure s iF = afterForward s := by
    rw [simulationPure_steps hF hp, handleStepBackward_released _ hFl,
      stepForwardPure_pressed hp hFr]
  have t1 : tick s iF = some (Outcome.running (afterForward s)) := by
    rw [tick_eq hs, tickPure_simulation iF hsim (by rw [e1]; exact hsim), e1]
  have hs1 : SessionWF (afterForward s) := by
    rw [← e1]; exact simulationPure_wf hs iF
  have hp1 : (afterForward s).paused = true := hp
  have hsim1 : (afterForward s).currentState = GameState.SIMULATION := hsim
  have e2 : simulationPure (afterForward s) iB = afterForwardBack s := by
    rw [simulationPure_steps hB hp1, stepForwardPure_released _ hBr]
    exact handleStepBackward_afterForward s hp hBl
  have t2 : tick (afterForward s) iB = some (Outcome.running (afterForwardBack s)) := by
    rw [tick_eq hs1, tickPure_simulation iB hsim1 (by rw [e2]; exact hsim), e2]
  simp only [runTicks, t1, t2]

/-- Step forward and step backward in the same frame, from a paused SIMULATION state. -/
theorem tick_forward_back {s : Session} {iFB : Input} (hs : SessionWF s)
    (hsim : s.currentState = GameState.SIMULATION) (hp : s.paused = true)
    (hFB : OnlyStepKeys iFB) (hFBr : iFB.keyRight = true) (hFBl : iFB.keyLeft = true) :
    tick s iFB = some (Outcome.running (afterForwardBack s)) := by
  have e : simulationPure s iFB = afterForwardBack s := by
    rw [simulationPure_steps hFB hp, stepForwardPure_pressed hp hFBr]
    exact handleStepBackward_afterForward s hp hFBl
  rw [tick_eq hs, tickPure_simulation iFB hsim (by rw [e]; exact hsim), e]

theorem pausedBlankSession_wf : SessionWF pausedBlankSession :=
  ⟨emptyGrid_wellFormed, emptyGrid_wellFormed, fun _ hh => by cases hh⟩

/-! ### The history bound along a frame -/

theorem drawPure_history (s : Session) (i : Input) : (drawPure s i).history = s.history := by
  unfold drawPure; split_ifs <;> rfl

theorem erasePure_history (s : Session) (i : Input) : (erasePure s i).history = s.history := by
  unfold erasePure; split_ifs <;> rfl

theorem handlePause_history (s : Session) (i : Input) :
    (handlePause s i).history = s.history := by
  unfold handlePause; split_ifs <;> rfl

theorem stepForwardPure_history_le {s : Session} (h : s.history.length ≤ 100) (i : Input) :
    (stepForwardPure s i).history.length ≤ 100 := by
  unfold stepForwardPure
  split_ifs
  · exact pushHistory_length_le _ _ h
  · exact h

theorem handleStepBackward_history_le {s : Session} (h : s.history.length ≤ 100) (i : Input) :
    (handleStepBackward s i).history.length ≤ 100 := by
  unfold handleStepBackward
  split_ifs
  · split
    · simp only [List.length_dropLast]; omega
    · exact h
  · exact h

theorem clearPure_history_le {s : Session} (h : s.history.length ≤ 100) (i : Input) :
    (clearPure s i).history.length ≤ 100 := by
  unfold clearPure
  split_ifs
  · simp
  · exact h

theorem escapePure_history_le {s : Session} (h : s.history.length ≤ 100) (i : Input) :
    (escapePure s i).history.length ≤ 100 := by
  unfold escapePure
  split_ifs
  · simp
  · exact h

theorem autoPure_history_le {s : Session} (h : s.history.length ≤ 100) :
    (autoPure s).history.length ≤ 100 := by
  unfold autoPure
  split_ifs
  · exact pushHistory_length_le _ _ h
  · exact h
  · exact h

theorem simulationPure_history_le {s : Session} (h : s.history.length ≤ 100) (i : Input) :
    (simulationPure s i).history.length ≤ 100 := by
  unfold simulationPure
  apply autoPure_history_le
  apply escapePure_history_le
  apply clearPure_history_le
  apply handleStepBackward_history_le
  apply stepForwardPure_history_le
  rw [handlePause_history, erasePure_history, drawPure_history]
  exact h

theorem seedMenuPure_history_le {s : Session} (h : s.history.length ≤ 100) (i : Input) :
    (seedMenuPure s i).history.length ≤ 100 := by
  unfold seedMenuPure blankPure randomPure
  simp only
  split_ifs <;> first | exact h | simp

theorem tickPure_history_le {s s1 : Session} (h : s.history.length ≤ 100) {i : Input}
    (ht : tickPure s i = Outcome.running s1) : s1.history.length ≤ 100 := by
  have hu : (updatePure s i).history.length ≤ 100 := by
    unfold updatePure
    split
    · exact h
    · exact h
    · exact simulationPure_history_le h i
  unfold tickPure drawFramePure at ht
  split at ht
  · unfold drawMainMenu at ht
    simp only at ht
    split_ifs at ht
    · injection ht with ht; subst ht; exact hu
    · injection ht with ht; subst ht; exact hu
  · injection ht with ht; subst ht; exact seedMenuPure_history_le hu i
  · injection ht with ht; subst ht; exact hu

/-- Every reachable session is well-formed and its history holds at most 100 snapshots. -/
theorem reachable_wf_bounded {s : Session} (h : Reachable s) :
    SessionWF s ∧ s.history.length ≤ 100 := by
  induction h with
  | init => exact ⟨initialSession_wf, by simp [initialSession]⟩
  | step i _ ht ih =>
    rw [tick_eq ih.1] at ht
    injection ht with ht
    exact ⟨tickPure_wf ih.1 ht, tickPure_history_le ih.2 ht⟩

theorem tick_initial_clickStart :
    tick initialSession clickStartInput
      = some (Outcome.running { initialSession with currentState := GameState.SEED_MENU }) := by
  rw [tick_eq initialSession_wf]
  rfl

/-! ### Auto-advance cadence -/

theorem step_eq {g : Grid} (hg : WellFormed g) : step g = some (stepGrid g) := by
  unfold step
  rw [updateGrid_eq hg emptyGrid_wellFormed]
  rfl

theorem iterate_stepGrid_wellFormed {g : Grid} (hg : WellFormed g) (k : Nat) :
    WellFormed (stepGrid^[k] g) := by
  cases k with
  | zero => exact hg
  | succ k =>
    rw [Function.iterate_succ_apply']
    exact stepGrid_wellFormed _

theorem stepTimes_eq {g : Grid} (hg : WellFormed g) (k : Nat) :
    stepTimes k g = some (stepGrid^[k] g) := by
  induction k with
  | zero => rfl
  | succ k ih =>
    rw [stepTimes, ih, Option.some_bind, step_eq (iterate_stepGrid_wellFormed hg k),
      Function.iterate_succ_apply']

theorem simulationPure_idle {s : Session} {i : Input} (hi : NoCommand i) :
    simulationPure s i = autoPure s := by
  obtain ⟨h1, h2, h3, h4, h5, h6, h7⟩ := hi
  have hd : drawPure s i = s := by simp [drawPure, h1]
  have he : erasePure s i = s := by simp [erasePure, h2]
  have hq : handlePause s i = s := by simp [handlePause, h3]
  have hf : stepForwardPure s i = s := stepForwardPure_released s h4
  have hb : handleStepBackward s i = s := handleStepBackward_released s h5
  have hc : clearPure s i = s := by simp [clearPure, h6]
  have hx : escapePure s i = s := by simp [escapePure, h7]
  unfold simulationPure
  rw [hd, he, hq, hf, hb, hc, hx]

theorem autoPure_currentState (s : Session) : (autoPure s).currentState = s.currentState := by
  unfold autoPure
  split_ifs <;> rfl

theorem autoPure_paused (s : Session) : (autoPure s).paused = s.paused := by
  unfold autoPure
  split_ifs <;> rfl

theorem runTicks_cons {s s1 : Session} {i : Input} (h : tick s i = some (Outcome.running s1))
    (rest : List Input) : runTicks s (i :: rest) = runTicks s1 rest := by
  simp only [runTicks, h]

theorem tick_idle {s : Session} {i : Input} (hs : SessionWF s)
    (hsim : s.currentState = GameState.SIMULATION) (hi : NoCommand i) :
    tick s i = some (Outcome.running (autoPure s)) := by
  rw [tick_eq hs, tickPure_simulation i hsim
    (by rw [simulationPure_idle hi, autoPure_currentState]; exact hsim), simulationPure_idle hi]

theorem autoPure_running_lt {s : Session} (hp : s.paused = false) {c : Nat}
    (hc : s.frameCounter = (c : Int)) (hlt : c < 5) :
    autoPure s = { s with frameCounter := ((c + 1 : Nat) : Int) } := by
  have hw : wrapInt (s.frameCounter + 1) = ((c + 1 : Nat) : Int) := by
    rw [hc]; unfold wrapInt; push_cast; omega
  unfold autoPure
  rw [hw]
  have hn : ¬ (((c + 1 : Nat) : Int) ≥ 6) := by push_cast; omega
  rw [if_pos (by rw [hp]; rfl), if_neg hn]

theorem autoPure_running_eq {s : Session} (hp : s.paused = false)
    (hc : s.frameCounter = 5) :
    autoPure s = { s with history := pushHistory s.history s.grid, grid := stepGrid s.grid,
                          nextGrid := stepGrid s.grid, frameCounter := 0 } := by
  have hw : wrapInt (s.frameCounter + 1) = 6 := by
    rw [hc]; decide
  unfold autoPure
  rw [hw, if_pos (by rw [hp]; rfl), if_pos (by decide)]

/-- Idle frames of a running simulation: after `m` of them from counter `c`, the grid has
been stepped `(c + m) / 6` times and the counter is `(c + m) % 6`. -/
theorem runTicks_idle (inputs : List Input) :
    ∀ (s : Session) (c : Nat), SessionWF s → s.currentState = GameState.SIMULATION →
      s.paused = false → s.frameCounter = (c : Int) → c < 6 →
      (∀ i ∈ inputs, NoCommand i) →
      ∃ s1, runTicks s inputs = some (Outcome.running s1) ∧
        s1.grid = stepGrid^[(c + inputs.length) / 6] s.grid ∧
        s1.frameCounter = (((c + inputs.length) % 6 : Nat) : Int) := by
  induction inputs with
  | nil =>
    intro s c _ _ _ hc hlt _
    refine ⟨s, rfl, ?_, ?_⟩
    · have : (c + ([] : List Input).length) / 6 = 0 := by simp; omega
      rw [this]; rfl
    · have : (c + ([] : List Input).length) % 6 = c := by simp; omega
      rw [this, hc]
  | cons i rest ih =>
    intro s c hs hsim hp hc hlt hall
    have hi : NoCommand i := hall i (List.mem_cons_self _ _)
    have hrest : ∀ j ∈ rest, NoCommand j := fun j hj => hall j (List.mem_cons_of_mem _ hj)
    have ht := tick_idle hs hsim hi
    have hwf : SessionWF (autoPure s) := autoPure_wf hs
    have hsim1 : (autoPure s).currentState = GameState.SIMULATION := by
      rw [autoPure_currentState]; exact hsim
    have hp1 : (autoPure s).paused = false := by rw [autoPure_paused]; exact hp
    rw [runTicks_cons ht]
    by_cases h5 : c < 5
    · have ha := autoPure_running_lt hp hc h5
      obtain ⟨s1, hr, hg, hf⟩ := ih (autoPure s) (c + 1) hwf hsim1 hp1 (by rw [ha]) (by omega)
        hrest
      refine ⟨s1, hr, ?_, ?_⟩
      · rw [hg, ha]
        have : c + 1 + rest.length = c + (i :: rest).length := by simp; omega
        rw [this]
      · rw [hf]
        have : c + 1 + rest.length = c + (i :: rest).length := by simp; omega
        rw [this]
    · have hc5 : s.frameCounter = 5 := by rw [hc]; have : c = 5 := by omega
                                          rw [this]; rfl
      have ha := autoPure_running_eq hp hc5
      obtain ⟨s1, hr, hg, hf⟩ := ih (autoPure s) 0 hwf hsim1 hp1 (by rw [ha]; rfl) (by omega)
        hrest
      refine ⟨s1, hr, ?_, ?_⟩
      · rw [hg, ha]
        have e1 : (c + (i :: rest).length) / 6 = (0 + rest.length) / 6 + 1 := by
          simp only [List.length_cons]; omega
        rw [e1, Function.iterate_succ_apply]
      · rw [hf]
        have e2 : (c + (i :: rest).length) % 6 = (0 + rest.length) % 6 := by
          simp only [List.length_cons]; omega
        rw [e2]

theorem runningBlankSession_wf : SessionWF runningBlankSession :=
  ⟨emptyGrid_wellFormed, emptyGrid_wellFormed, fun _ hh => by cases hh⟩

theorem idleInput_noCommand : NoCommand idleInput := ⟨rfl, rfl, rfl, rfl, rfl, rfl, rfl⟩

/-! ### The seed menu -/

theorem readCell_emptyGrid {x y : Int} (hx0 : 0 ≤ x) (hx : x < 80) (hy0 : 0 ≤ y) (hy : y < 60) :
    readCell emptyGrid x y = some false := by
  rw [readCell_eq emptyGrid_wellFormed hx0 hx hy0 hy, cellAt_emptyGrid]

theorem blank_random_exclusive {i : Input} (hb : blankClicked i = true) :
    randomClicked i = false := by
  unfold blankClicked drawButton isMouseOver at hb
  unfold randomClicked drawButton isMouseOver
  simp only [Bool.and_eq_true, decide_eq_true_eq] at hb
  have h1 : ¬ (i.mouseY ≥ 300) := by omega
  simp [h1]

theorem seedMenuSession_wf : SessionWF seedMenuSession :=
  ⟨emptyGrid_wellFormed, emptyGrid_wellFormed, fun _ hh => by cases hh⟩

theorem tickPure_seedMenu {s : Session} (i : Input)
    (hseed : s.currentState = GameState.SEED_MENU) :
    tickPure s i = Outcome.running (seedMenuPure s i) := by
  unfold tickPure updatePure drawFramePure
  simp only [hseed]

theorem seedMenuPure_fields {s : Session} {i : Input}
    (hc : blankClicked i = true ∨ randomClicked i = true) :
    (seedMenuPure s i).history = [] ∧ (seedMenuPure s i).paused = false ∧
      (seedMenuPure s i).currentState
        = (if i.keyEscape then GameState.MAIN_MENU else GameState.SIMULATION) ∧
      (blankClicked i = true → (seedMenuPure s i).grid = emptyGrid) := by
  unfold seedMenuPure
  rcases hc with hb | hr
  · have hr := blank_random_exclusive hb
    simp only [hb, hr, if_true]
    cases i.keyEscape <;> simp [blankPure]
  · simp only [hr, if_true]
    refine ⟨?_, ?_, ?_, ?_⟩
    · cases i.keyEscape <;> simp [randomPure]
    · cases i.keyEscape <;> simp [randomPure]
    · cases i.keyEscape <;> simp [randomPure]
    · intro hb
      rw [blank_random_exclusive hb] at hr
      exact absurd hr (by decide)

/-! ### Escape and clear in a SIMULATION frame -/

theorem simulationPure_eq_beforeClear (s : Session) (i : Input) :
    simulationPure s i = autoPure (escapePure (clearPure (beforeClear s i) i) i) := rfl

theorem beforeClear_frameCounter (s : Session) (i : Input) :
    (beforeClear s i).frameCounter = s.frameCounter := by
  have h1 : (drawPure s i).frameCounter = s.frameCounter := by
    unfold drawPure; split_ifs <;> rfl
  have h2 : ∀ t : Session, (erasePure t i).frameCounter = t.frameCounter := fun t => by
    unfold erasePure; split_ifs <;> rfl
  have h3 : ∀ t : Session, (handlePause t i).frameCounter = t.frameCounter := fun t => by
    unfold handlePause; split_ifs <;> rfl
  have h4 : ∀ t : Session, (stepForwardPure t i).frameCounter = t.frameCounter := fun t => by
    unfold stepForwardPure; split_ifs <;> rfl
  have h5 : ∀ t : Session, (handleStepBackward t i).frameCounter = t.frameCounter := fun t => by
    unfold handleStepBackward
    split_ifs
    · split <;> rfl
    · rfl
  unfold beforeClear
  rw [h5, h4, h3, h2, h1]

theorem beforeClear_currentState (s : Session) (i : Input) :
    (beforeClear s i).currentState = s.currentState := by
  have h1 : (drawPure s i).currentState = s.currentState := by
    unfold drawPure; split_ifs <;> rfl
  have h2 : ∀ t : Session, (erasePure t i).currentState = t.currentState := fun t => by
    unfold erasePure; split_ifs <;> rfl
  have h3 : ∀ t : Session, (handlePause t i).currentState = t.currentState := fun t => by
    unfold handlePause; split_ifs <;> rfl
  have h4 : ∀ t : Session, (stepForwardPure t i).currentState = t.currentState := fun t => by
    unfold stepForwardPure; split_ifs <;> rfl
  have h5 : ∀ t : Session, (handleStepBackward t i).currentState = t.currentState :=
    fun t => by
      unfold handleStepBackward
      split_ifs
      · split <;> rfl
      · rfl
  unfold beforeClear
  rw [h5, h4, h3, h2, h1]

theorem clearPure_frameCounter (s : Session) (i : Input) :
    (clearPure s i).frameCounter = s.frameCounter := by
  unfold clearPure; split_ifs <;> rfl

theorem autoPure_of_paused {s : Session} (hp : s.paused = true) : autoPure s = s := by
  simp [autoPure, hp]

theorem simulationPure_escape (s : Session) {i : Input} (he : i.keyEscape = true) :
    simulationPure s i
      = { clearPure (beforeClear s i) i with
          currentState := GameState.MAIN_MENU, paused := true, grid := emptyGrid,
          history := [] } := by
  rw [simulationPure_eq_beforeClear]
  have hx : escapePure (clearPure (beforeClear s i) i) i
      = { clearPure (beforeClear s i) i with
          currentState := GameState.MAIN_MENU, paused := true, grid := emptyGrid,
          history := [] } := by
    simp [escapePure, he]
  rw [hx]
  exact autoPure_of_paused rfl

theorem drawMainMenu_eq (s : Session) (i : Input) :
    drawMainMenu s i
      = if quitClicked i then Outcome.exited
        else Outcome.running
          (if startClicked i then { s with currentState := GameState.SEED_MENU } else s) := rfl

theorem tickPure_escape {s : Session} {i : Input}
    (hsim : s.currentState = GameState.SIMULATION) (he : i.keyEscape = true) :
    tickPure s i = drawMainMenu (simulationPure s i) i := by
  unfold tickPure updatePure drawFramePure
  rw [hsim]
  simp only [simulationPure_escape s he]

theorem aliveAt_emptyGrid (x y : Int) : aliveAt emptyGrid x y = false := by
  simp [aliveAt, cellAt_emptyGrid]

theorem stepGrid_emptyGrid : stepGrid emptyGrid = emptyGrid := by
  have h : nextCell emptyGrid = fun _ _ => false := by
    funext x y
    simp [nextCell, liveNeighbors, aliveAt_emptyGrid, cellAt_emptyGrid, toInt]
  rw [stepGrid, h, gridOf_false]

theorem beforeClear_paused (s : Session) (i : Input) :
    (beforeClear s i).paused = (handlePause s i).paused := by
  have h1 : (drawPure s i).paused = s.paused := by
    unfold drawPure; split_ifs <;> rfl
  have h2 : ∀ t : Session, (erasePure t i).paused = t.paused := fun t => by
    unfold erasePure; split_ifs <;> rfl
  have h3 : ∀ t u : Session, t.paused = u.paused →
      (handlePause t i).paused = (handlePause u i).paused := fun t u h => by
    unfold handlePause; split_ifs <;> simp [h]
  have h4 : ∀ t : Session, (stepForwardPure t i).paused = t.paused := fun t => by
    unfold stepForwardPure; split_ifs <;> rfl
  have h5 : ∀ t : Session, (handleStepBackward t i).paused = t.paused := fun t => by
    unfold handleStepBackward
    split_ifs
    · split <;> rfl
    · rfl
  unfold beforeClear
  rw [h5, h4]
  exact h3 _ _ (by rw [h2, h1])

theorem pushHistory_nil (g : Grid) : pushHistory [] g = [g] := by
  simp [pushHistory, MAX_HISTORY]

theorem simulationPure_clear (s : Session) {i : Input} (hc : i.keyC = true)
    (he : i.keyEscape = false) :
    (simulationPure s i).grid = emptyGrid ∧
      (simulationPure s i).currentState = s.currentState ∧
      (simulationPure s i).history
        = (if (handlePause s i).paused = false ∧ wrapInt (s.frameCounter + 1) ≥ 6
            then [emptyGrid] else []) := by
  rw [simulationPure_eq_beforeClear]
  have hcl : clearPure (beforeClear s i) i
      = { beforeClear s i with grid := emptyGrid, history := [] } := by
    simp [clearPure, hc]
  have hx : ∀ t : Session, escapePure t i = t := fun t => by simp [escapePure, he]
  rw [hx, hcl]
  unfold autoPure
  simp only [beforeClear_paused, beforeClear_frameCounter, beforeClear_currentState,
    pushHistory_nil, stepGrid_emptyGrid]
  cases hp : (handlePause s i).paused
  · by_cases hw : wrapInt (s.frameCounter + 1) ≥ 6
    · simp [hw]
    · simp [hw]
  · simp

/-! ### Patterns in the interior of the grid -/

theorem hasCell_inBox {cells : List (Int × Int)} (hb : InBox cells) {u v : Int}
    (h : hasCell cells u v = true) : 0 ≤ u ∧ u ≤ 3 ∧ 0 ≤ v ∧ v ≤ 3 := by
  unfold hasCell at h
  exact hb (u, v) (of_decide_eq_true h)

theorem patternGrid_wellFormed (cells : List (Int × Int)) (ox oy : Int) :
    WellFormed (patternGrid cells ox oy) := gridOf_wellFormed _

theorem cellAt_patternGrid (cells : List (Int × Int)) (ox oy : Int) {x y : Int}
    (hx0 : 0 ≤ x) (hx : x < 80) (hy0 : 0 ≤ y) (hy : y < 60) :
    cellAt (patternGrid cells ox oy) x y = hasCell cells (x - ox) (y - oy) := by
  unfold patternGrid
  rw [cellAt_gridOf _ hx0 hx hy0 hy]

theorem aliveAt_patternGrid {cells : List (Int × Int)} (hb : InBox cells) {ox oy : Int}
    (hox0 : 0 ≤ ox) (hox : ox + 3 < 80) (hoy0 : 0 ≤ oy) (hoy : oy + 3 < 60) (x y : Int) :
    aliveAt (patternGrid cells ox oy) x y = hasCell cells (x - ox) (y - oy) := by
  unfold aliveAt
  simp only [GRID_WIDTH, GRID_HEIGHT, ge_iff_le]
  by_cases hin : 0 ≤ x ∧ x < 80 ∧ 0 ≤ y ∧ y < 60
  · rw [cellAt_patternGrid cells ox oy hin.1 hin.2.1 hin.2.2.1 hin.2.2.2]
    simp [hin]
  · cases hc : hasCell cells (x - ox) (y - oy) with
    | false => simp [hin]
    | true =>
      have := hasCell_inBox hb hc
      exact absurd (show 0 ≤ x ∧ x < 80 ∧ 0 ≤ y ∧ y < 60 by omega) hin

theorem liveNeighbors_patternGrid {cells : List (Int × Int)} (hb : InBox cells) {ox oy : Int}
    (hox0 : 0 ≤ ox) (hox : ox + 3 < 80) (hoy0 : 0 ≤ oy) (hoy : oy + 3 < 60) (x y : Int) :
    liveNeighbors (patternGrid cells ox oy) x y = patternNeighbors cells (x - ox) (y - oy) := by
  have ex : ∀ d : Int, x + d - ox = x - ox + d := fun d => by ring
  have ey : ∀ d : Int, y + d - oy = y - oy + d := fun d => by ring
  unfold liveNeighbors patternNeighbors
  simp only [aliveAt_patternGrid hb hox0 hox hoy0 hoy, ex, ey]

/-- A pattern inside the 4 x 4 box leaves every offset outside `-1..4` dead with no alive
neighbour. -/
theorem lifeRule_far {cells : List (Int × Int)} (hb : InBox cells) {u v : Int}
    (hfar : u < -1 ∨ 4 < u ∨ v < -1 ∨ 4 < v) : lifeRule cells u v = false := by
  have hz : ∀ a b : Int, -1 ≤ a → a ≤ 1 → -1 ≤ b → b ≤ 1 →
      hasCell cells (u + a) (v + b) = false := by
    intro a b ha0 ha hb0 hb1
    cases hc : hasCell cells (u + a) (v + b) with
    | false => rfl
    | true =>
      have := hasCell_inBox hb hc
      omega
  have hn : patternNeighbors cells u v = 0 := by
    unfold patternNeighbors
    rw [hz (-1) (-1), hz 0 (-1), hz 1 (-1), hz (-1) 0, hz 1 0, hz (-1) 1, hz 0 1, hz 1 1] <;>
      first | rfl | decide
  have hc : hasCell cells u v = false := by
    have := hz 0 0 (by decide) (by decide) (by decide) (by decide)
    simpa using this
  unfold lifeRule
  rw [hn, hc]
  rfl

/-- One generation of a pattern that stays inside the 4 x 4 box, placed where the box is
inside the grid: the grid steps as the pattern does in the unbounded plane. -/
theorem stepGrid_patternGrid {cells next : List (Int × Int)} (hb : InBox cells)
    (hnext : InBox next)
    (hrule : ∀ u v : Int, -1 ≤ u → u ≤ 4 → -1 ≤ v → v ≤ 4 →
      lifeRule cells u v = hasCell next u v)
    {ox oy : Int} (hox0 : 0 ≤ ox) (hox : ox + 3 < 80) (hoy0 : 0 ≤ oy) (hoy : oy + 3 < 60) :
    stepGrid (patternGrid cells ox oy) = patternGrid next ox oy := by
  apply grid_ext (stepGrid_wellFormed _) (patternGrid_wellFormed next ox oy)
  intro x y hx0 hx hy0 hy
  rw [stepGrid, cellAt_gridOf _ hx0 hx hy0 hy, cellAt_patternGrid next ox oy hx0 hx hy0 hy]
  have hcell : nextCell (patternGrid cells ox oy) x y = lifeRule cells (x - ox) (y - oy) := by
    unfold nextCell lifeRule
    rw [liveNeighbors_patternGrid hb hox0 hox hoy0 hoy,
      cellAt_patternGrid cells ox oy hx0 hx hy0 hy]
  rw [hcell]
  by_cases hnear : -1 ≤ x - ox ∧ x - ox ≤ 4 ∧ -1 ≤ y - oy ∧ y - oy ≤ 4
  · exact hrule _ _ hnear.1 hnear.2.1 hnear.2.2.1 hnear.2.2.2
  · rw [lifeRule_far hb (by omega)]
    cases hc : hasCell next (x - ox) (y - oy) with
    | false => rfl
    | true =>
      have := hasCell_inBox hnext hc
      omega

/-! ### The generations of the glider -/

theorem glider_rule_0 (u v : Int) (hu0 : -1 ≤ u) (hu : u ≤ 4) (hv0 : -1 ≤ v) (hv : v ≤ 4) :
    lifeRule gliderCells u v = hasCell gliderGen1 u v := by
  interval_cases u <;> interval_cases v <;> decide

theorem glider_rule_1 (u v : Int) (hu0 : -1 ≤ u) (hu : u ≤ 4) (hv0 : -1 ≤ v) (hv : v ≤ 4) :
    lifeRule gliderGen1 u v = hasCell gliderGen2 u v := by
  interval_cases u <;> interval_cases v <;> decide

theorem glider_rule_2 (u v : Int) (hu0 : -1 ≤ u) (hu : u ≤ 4) (hv0 : -1 ≤ v) (hv : v ≤ 4) :
    lifeRule gliderGen2 u v = hasCell gliderGen3 u v := by
  interval_cases u <;> interval_cases v <;> decide

theorem glider_rule_3 (u v : Int) (hu0 : -1 ≤ u) (hu : u ≤ 4) (hv0 : -1 ≤ v) (hv : v ≤ 4) :
    lifeRule gliderGen3 u v = hasCell gliderGen4 u v := by
  interval_cases u <;> interval_cases v <;> decide

theorem hasCell_gliderGen4 (u v : Int) :
    hasCell gliderGen4 u v = hasCell gliderCells (u - 1) (v - 1) := by
  unfold hasCell gliderGen4 gliderCells
  rw [decide_eq_decide]
  simp only [List.mem_cons, Prod.mk.injEq, List.mem_singleton, List.mem_nil_iff, or_false]
  omega

theorem patternGrid_gliderGen4 (ox oy : Int) :
    patternGrid gliderGen4 ox oy = gliderGrid (ox + 1) (oy + 1) := by
  unfold gliderGrid patternGrid
  have h : (fun x y : Int => hasCell gliderGen4 (x - ox) (y - oy))
      = fun x y : Int => hasCell gliderCells (x - (ox + 1)) (y - (oy + 1)) := by
    funext x y
    rw [hasCell_gliderGen4]
    have e1 : x - ox - 1 = x - (ox + 1) := by ring
    have e2 : y - oy - 1 = y - (oy + 1) := by ring
    rw [e1, e2]
  rw [h]

/-- The first two generations of a glider placed in the interior. -/
theorem glider_two_steps {ox oy : Int} (hox0 : 0 ≤ ox) (hox : ox + 3 < 80) (hoy0 : 0 ≤ oy)
    (hoy : oy + 3 < 60) :
    stepGrid (stepGrid (gliderGrid ox oy)) = patternGrid gliderGen2 ox oy := by
  unfold gliderGrid
  rw [stepGrid_patternGrid (by decide) (by decide) glider_rule_0 hox0 hox hoy0 hoy,
    stepGrid_patternGrid (by decide) (by decide) glider_rule_1 hox0 hox hoy0 hoy]

/-- Four generations of a glider placed in the interior move it by `(1, 1)`. -/
theorem glider_four_steps {ox oy : Int} (hox0 : 0 ≤ ox) (hox : ox + 3 < 80) (hoy0 : 0 ≤ oy)
    (hoy : oy + 3 < 60) :
    stepGrid (stepGrid (stepGrid (stepGrid (gliderGrid ox oy))))
      = gliderGrid (ox + 1) (oy + 1) := by
  rw [glider_two_steps hox0 hox hoy0 hoy,
    stepGrid_patternGrid (by decide) (by decide) glider_rule_2 hox0 hox hoy0 hoy,
    stepGrid_patternGrid (by decide) (by decide) glider_rule_3 hox0 hox hoy0 hoy,
    patternGrid_gliderGen4]

theorem gliderGrid_wellFormed (ox oy : Int) : WellFormed (gliderGrid ox oy) :=
  patternGrid_wellFormed gliderCells ox oy

/-! ### Step commands outside their precondition -/

theorem handleStepBackward_empty (s : Session) (i : Input) (hh : s.history = []) :
    handleStepBackward s i = s := by
  unfold handleStepBackward
  rw [hh]
  split_ifs <;> rfl

theorem stepForwardPure_running (s : Session) (i : Input) (hp : s.paused = false) :
    stepForwardPure s i = s := by
  simp [stepForwardPure, hp]

theorem handleStepBackward_running (s : Session) (i : Input) (hp : s.paused = false) :
    handleStepBackward s i = s := by
  simp [handleStepBackward, hp]

theorem afterToggle_paused (s : Session) (i : Input) :
    (handlePause (erasePure (drawPure s i) i) i).paused = (handlePause s i).paused := by
  have h1 : (drawPure s i).paused = s.paused := by
    unfold drawPure; split_ifs <;> rfl
  have h2 : ∀ t : Session, (erasePure t i).paused = t.paused := fun t => by
    unfold erasePure; split_ifs <;> rfl
  have h3 : ∀ t u : Session, t.paused = u.paused →
      (handlePause t i).paused = (handlePause u i).paused := fun t u h => by
    unfold handlePause; split_ifs <;> simp [h]
  exact h3 _ _ (by rw [h2, h1])

/-- With `paused = false` after the pause toggle, the update half of a SIMULATION frame does
not depend on the two step keys. -/
theorem simulationPure_steps_ignored (s : Session) (i : Input)
    (hp : (handlePause s i).paused = false) :
    simulationPure s i = simulationPure s { i with keyRight := false, keyLeft := false } := by
  have ht : (handlePause (erasePure (drawPure s i) i) i).paused = false := by
    rw [afterToggle_paused]; exact hp
  have e1 : simulationPure s i
      = autoPure (escapePure (clearPure (handlePause (erasePure (drawPure s i) i) i) i) i) := by
    unfold simulationPure
    rw [stepForwardPure_running _ _ ht, handleStepBackward_running _ _ ht]
  have e2 : simulationPure s { i with keyRight := false, keyLeft := false }
      = autoPure (escapePure (clearPure (handlePause (erasePure (drawPure s i) i) i) i) i) := by
    unfold simulationPure
    rw [stepForwardPure_released _ rfl, handleStepBackward_released _ rfl]
    rfl
  rw [e1, e2]

theorem drawFramePure_steps_ignored (s : Session) (i : Input) :
    drawFramePure s i = drawFramePure s { i with keyRight := false, keyLeft := false } := rfl

/-! ### Drawing and erasing a cell -/

theorem readCell_setCell {g : Grid} (hg : WellFormed g) {x y : Int}
    (hx0 : 0 ≤ x) (hx : x < 80) (hy0 : 0 ≤ y) (hy : y < 60) (v : Bool) :
    readCell (setCell g x y v) x y = some v ∧
      ∀ x1 y1 : Int, 0 ≤ x1 → x1 < 80 → 0 ≤ y1 → y1 < 60 → (x1, y1) ≠ (x, y) →
        readCell (setCell g x y v) x1 y1 = readCell g x1 y1 := by
  have hw := setCell_wellFormed hg x hy0 hy v
  constructor
  · rw [readCell_eq hw hx0 hx hy0 hy, cellAt_setCell hg hx0 hx hy0 hy v hx0 hy0]
    simp
  · intro x1 y1 hx10 hx1 hy10 hy1 hne
    rw [readCell_eq hw hx10 hx1 hy10 hy1, readCell_eq hg hx10 hx1 hy10 hy1,
      cellAt_setCell hg hx0 hx hy0 hy v hx10 hy10]
    have : ¬ (x1 = x ∧ y1 = y) := fun h => hne (by rw [h.1, h.2])
    rw [if_neg this]

/-! ### The corner cell, and the random seed -/

theorem liveNeighbors_corner (g : Grid) :
    liveNeighbors g 0 0 = toInt (cellAt g 1 0) + toInt (cellAt g 0 1) + toInt (cellAt g 1 1) := by
  have hout : ∀ x y : Int, x < 0 ∨ y < 0 → aliveAt g x y = false := by
    intro x y h
    unfold aliveAt
    have : ¬ (x ≥ 0 ∧ x < GRID_WIDTH ∧ y ≥ 0 ∧ y < GRID_HEIGHT) := by
      intro hc; omega
    simp [this]
  have hin : ∀ x y : Int, 0 ≤ x → x < 80 → 0 ≤ y → y < 60 → aliveAt g x y = cellAt g x y := by
    intro x y hx0 hx hy0 hy
    unfold aliveAt
    have : x ≥ 0 ∧ x < GRID_WIDTH ∧ y ≥ 0 ∧ y < GRID_HEIGHT := by
      unfold GRID_WIDTH GRID_HEIGHT; omega
    simp [this]
  unfold liveNeighbors
  rw [hout (0 + -1) (0 + -1) (by decide), hout (0 + 0) (0 + -1) (by decide),
    hout (0 + 1) (0 + -1) (by decide), hout (0 + -1) (0 + 0) (by decide),
    hout (0 + -1) (0 + 1) (by decide),
    hin (0 + 1) (0 + 0) (by decide) (by decide) (by decide) (by decide),
    hin (0 + 0) (0 + 1) (by decide) (by decide) (by decide) (by decide),
    hin (0 + 1) (0 + 1) (by decide) (by decide) (by decide) (by decide)]
  simp [toInt]

theorem cornerNeighbours_count {g : Grid} (hg : WellFormed g) :
    ((cornerNeighbours.countP (fun p => readCell g p.1 p.2 == some true) : Nat) : Int)
      = toInt (cellAt g 1 0) + toInt (cellAt g 0 1) + toInt (cellAt g 1 1) := by
  unfold cornerNeighbours
  simp only [List.countP_cons, List.countP_nil,
    readCell_eq hg (show (0 : Int) ≤ 1 by decide) (show (1 : Int) < 80 by decide)
      (show (0 : Int) ≤ 0 by decide) (show (0 : Int) < 60 by decide),
    readCell_eq hg (show (0 : Int) ≤ 0 by decide) (show (0 : Int) < 80 by decide)
      (show (0 : Int) ≤ 1 by decide) (show (1 : Int) < 60 by decide),
    readCell_eq hg (show (0 : Int) ≤ 1 by decide) (show (1 : Int) < 80 by decide)
      (show (0 : Int) ≤ 1 by decide) (show (1 : Int) < 60 by decide)]
  cases cellAt g 1 0 <;> cases cellAt g 0 1 <;> cases cellAt g 1 1 <;> rfl

theorem readCell_seededGrid (draws : Nat → Int) {x y : Int}
    (hx0 : 0 ≤ x) (hx : x < 80) (hy0 : 0 ≤ y) (hy : y < 60) :
    readCell (seededGrid draws) x y
      = some (decide (draws (y * GRID_WIDTH + x).toNat < 30)) := by
  rw [readCell_eq (seededGrid_wellFormed draws) hx0 hx hy0 hy]
  unfold seededGrid
  rw [cellAt_gridOf _ hx0 hx hy0 hy]

theorem aliveAfterSeed_eq {g : Grid} (hg : WellFormed g) {x y : Int}
    (hx0 : 0 ≤ x) (hx : x < 80) (hy0 : 0 ≤ y) (hy : y < 60) (d : Int) :
    aliveAfterSeed g x y d = decide (d < 30) := by
  unfold aliveAfterSeed
  rw [randomSeed_eq _ hg, Option.some_bind, readCell_seededGrid _ hx0 hx hy0 hy]
  cases decide (d < 30) <;> rfl

theorem aliveDraws_eq {g : Grid} (hg : WellFormed g) {x y : Int}
    (hx0 : 0 ≤ x) (hx : x < 80) (hy0 : 0 ≤ y) (hy : y < 60) : aliveDraws g x y = 30 := by
  have hpred : (fun d : Nat => aliveAfterSeed g x y (d : Int))
      = fun d : Nat => decide ((d : Int) < 30) := by
    funext d
    exact aliveAfterSeed_eq hg hx0 hx hy0 hy _
  unfold aliveDraws
  rw [hpred]
  decide

/-! ### The main menu -/

theorem tick_mainMenu (s : Session) (i : Input) (hm : s.currentState = GameState.MAIN_MENU) :
    tick s i = some (drawMainMenu s i) := by
  unfold tick updateFrame
  rw [hm]
  simp only [Option.some_bind]
  unfold drawFrame
  rw [hm]

/-! ### The history outside SIMULATION mode -/

theorem simulationPure_currentState_of_no_escape (s : Session) {i : Input}
    (he : i.keyEscape = false) : (simulationPure s i).currentState = s.currentState := by
  rw [simulationPure_eq_beforeClear, autoPure_currentState]
  have hx : ∀ t : Session, escapePure t i = t := fun t => by simp [escapePure, he]
  have hc : ∀ t : Session, (clearPure t i).currentState = t.currentState := fun t => by
    unfold clearPure; split_ifs <;> rfl
  rw [hx, hc, beforeClear_currentState]

theorem simulationPure_history_of_left {s : Session} (i : Input)
    (hsim : s.currentState = GameState.SIMULATION)
    (hleft : (simulationPure s i).currentState ≠ GameState.SIMULATION) :
    (simulationPure s i).history = [] := by
  cases he : i.keyEscape with
  | false =>
    rw [simulationPure_currentState_of_no_escape s he] at hleft
    exact absurd hsim hleft
  | true => rw [simulationPure_escape s he]

theorem drawMainMenu_fields {s s1 : Session} {i : Input}
    (h : drawMainMenu s i = Outcome.running s1) :
    s1.history = s.history ∧ s1.frameCounter = s.frameCounter ∧
      s1.currentState ≠ GameState.SIMULATION ∨ s1 = s := by
  rw [drawMainMenu_eq] at h
  split_ifs at h with hq hst
  · injection h with h
    subst h
    exact Or.inl ⟨rfl, rfl, by simp⟩
  · injection h with h
    exact Or.inr h.symm

theorem seedMenuPure_frameCounter (s : Session) (i : Input) :
    (seedMenuPure s i).frameCounter = s.frameCounter := by
  unfold seedMenuPure blankPure randomPure
  simp only
  split_ifs <;> rfl

theorem seedMenuPure_history_nil {s : Session} (i : Input) (hh : s.history = []) :
    (seedMenuPure s i).history = [] := by
  unfold seedMenuPure blankPure randomPure
  simp only
  split_ifs <;> first | exact hh | rfl

/-- Outside SIMULATION mode the history is empty: this is kept by every frame. -/
theorem tickPure_history_nil {s s1 : Session} {i : Input}
    (hinv : s.currentState ≠ GameState.SIMULATION → s.history = [])
    (ht : tickPure s i = Outcome.running s1) :
    s1.currentState ≠ GameState.SIMULATION → s1.history = [] := by
  unfold tickPure updatePure drawFramePure at ht
  cases hm : s.currentState with
  | MAIN_MENU =>
    have hh : s.history = [] := hinv (by rw [hm]; decide)
    rw [hm] at ht
    simp only [hm] at ht
    intro _
    rcases drawMainMenu_fields ht with h | h
    · rw [h.1, hh]
    · rw [h, hh]
  | SEED_MENU =>
    have hh : s.history = [] := hinv (by rw [hm]; decide)
    rw [hm] at ht
    simp only [hm] at ht
    injection ht with ht
    subst ht
    intro _
    exact seedMenuPure_history_nil i hh
  | SIMULATION =>
    rw [hm] at ht
    simp only at ht
    intro hleft
    cases hm1 : (simulationPure s i).currentState with
    | MAIN_MENU =>
      have hnil := simulationPure_history_of_left i hm (by rw [hm1]; decide)
      simp only [hm1] at ht
      rcases drawMainMenu_fields ht with h | h
      · rw [h.1, hnil]
      · rw [h, hnil]
    | SEED_MENU =>
      have hnil := simulationPure_history_of_left i hm (by rw [hm1]; decide)
      simp only [hm1] at ht
      injection ht with ht
      subst ht
      exact seedMenuPure_history_nil i hnil
    | SIMULATION =>
      simp only [hm1] at ht
      injection ht with ht
      subst ht
      exact absurd hm1 hleft

theorem reachable_history_nil {s : Session} (h : Reachable s) :
    s.currentState ≠ GameState.SIMULATION → s.history = [] := by
  induction h with
  | init => intro _; rfl
  | @step s s1 i hr ht ih =>
    rw [tick_eq (reachable_wf_bounded hr).1] at ht
    injection ht with ht
    exact tickPure_history_nil ih ht

/-! ### The frame counter -/

theorem autoPure_frameCounter (s : Session) (h0 : 0 ≤ s.frameCounter) (h5 : s.frameCounter ≤ 5) :
    (autoPure s).frameCounter
      = if s.paused = false then (s.frameCounter + 1) % 6 else s.frameCounter := by
  have hw : wrapInt (s.frameCounter + 1) = s.frameCounter + 1 := by unfold wrapInt; omega
  unfold autoPure
  rw [hw]
  cases hp : s.paused
  · by_cases h6 : s.frameCounter + 1 ≥ 6
    · simp only [Bool.not_false, if_true, h6]
      omega
    · simp only [Bool.not_false, if_true, h6, if_false]
      omega
  · simp

theorem escapePure_frameCounter (s : Session) (i : Input) :
    (escapePure s i).frameCounter = s.frameCounter := by
  unfold escapePure; split_ifs <;> rfl

theorem clearPure_paused (s : Session) (i : Input) : (clearPure s i).paused = s.paused := by
  unfold clearPure; split_ifs <;> rfl

theorem escapePure_paused (s : Session) (i : Input) :
    (escapePure s i).paused = (if i.keyEscape then true else s.paused) := by
  unfold escapePure; split_ifs <;> rfl

theorem simulationPure_frameCounter (s : Session) (i : Input) (h0 : 0 ≤ s.frameCounter)
    (h5 : s.frameCounter ≤ 5) :
    (simulationPure s i).frameCounter
      = if i.keyEscape = false ∧ (handlePause s i).paused = false then
          (s.frameCounter + 1) % 6
        else s.frameCounter := by
  have hfc : (escapePure (clearPure (beforeClear s i) i) i).frameCounter = s.frameCounter := by
    rw [escapePure_frameCounter, clearPure_frameCounter, beforeClear_frameCounter]
  have hpa : (escapePure (clearPure (beforeClear s i) i) i).paused
      = (if i.keyEscape then true else (handlePause s i).paused) := by
    rw [escapePure_paused, clearPure_paused, beforeClear_paused]
  rw [simulationPure_eq_beforeClear, autoPure_frameCounter _ (by rw [hfc]; exact h0)
    (by rw [hfc]; exact h5), hfc, hpa]
  cases i.keyEscape <;> cases (handlePause s i).paused <;> simp

theorem drawFramePure_frameCounter {s s1 : Session} {i : Input}
    (h : drawFramePure s i = Outcome.running s1) : s1.frameCounter = s.frameCounter := by
  unfold drawFramePure at h
  split at h
  · rcases drawMainMenu_fields h with h1 | h1
    · exact h1.2.1
    · rw [h1]
  · injection h with h
    subst h
    exact seedMenuPure_frameCounter s i
  · injection h with h
    subst h
    rfl

theorem tickPure_frameCounter {s s1 : Session} {i : Input} (h0 : 0 ≤ s.frameCounter)
    (h5 : s.frameCounter ≤ 5) (ht : tickPure s i = Outcome.running s1) :
    s1.frameCounter = nextFrameCounter s i := by
  unfold tickPure at ht
  rw [drawFramePure_frameCounter ht]
  unfold updatePure nextFrameCounter
  cases hm : s.currentState with
  | MAIN_MENU => simp
  | SEED_MENU => simp
  | SIMULATION =>
    simp only [true_and]
    exact simulationPure_frameCounter s i h0 h5

theorem nextFrameCounter_bounds (s : Session) (i : Input) (h0 : 0 ≤ s.frameCounter)
    (h5 : s.frameCounter ≤ 5) : 0 ≤ nextFrameCounter s i ∧ nextFrameCounter s i ≤ 5 := by
  unfold nextFrameCounter
  split_ifs
  · omega
  · exact ⟨h0, h5⟩

theorem reachable_frameCounter {s : Session} (h : Reachable s) :
    0 ≤ s.frameCounter ∧ s.frameCounter ≤ 5 := by
  induction h with
  | init => exact ⟨by decide, by decide⟩
  | @step s s1 i hr ht ih =>
    rw [tick_eq (reachable_wf_bounded hr).1] at ht
    injection ht with ht
    rw [tickPure_frameCounter ih.1 ih.2 ht]
    exact nextFrameCounter_bounds s i ih.1 ih.2
/-! # Verified claims -/

/-- Claim C1. For every 80x60 grid `g`, any 80x60 `nextGrid` buffer and every cell `(x, y)`
of the grid, `updateGrid` returns, and in the grid it leaves the cell `(x, y)` is alive if
and only if either `g[y][x]` was alive and `countNeighbors(g, x, y)` is 2 or 3, or `g[y][x]`
was dead and `countNeighbors(g, x, y)` is 3, all counts being taken on the pre-step `g`. -/
theorem updateGrid_rule (g n : Grid) (hg : WellFormed g) (hn : WellFormed n) (x y : Int)
    (hx0 : 0 ≤ x) (hx : x < 80) (hy0 : 0 ≤ y) (hy : y < 60) :
    ∃ g1 n1, updateGrid g n = some (g1, n1) ∧
      (readCell g1 x y = some true ↔
        (readCell g x y = some true ∧
            (countNeighbors g x y = some 2 ∨ countNeighbors g x y = some 3)) ∨
          (readCell g x y = some false ∧ countNeighbors g x y = some 3)) := by
  refine ⟨stepGrid g, stepGrid g, updateGrid_eq hg hn, ?_⟩
  rw [readCell_eq (stepGrid_wellFormed g) hx0 hx hy0 hy, readCell_eq hg hx0 hx hy0 hy,
    countNeighbors_eq hg (isInt32_of_bounds hx0 hx) (isInt32_of_bounds hy0 (by omega)),
    stepGrid, cellAt_gridOf _ hx0 hx hy0 hy, nextCell]
  cases cellAt g x y <;> simp

/-- Witness of `updateGrid_rule`: the all-dead grid at cell `(0, 0)`. -/
theorem updateGrid_rule_witness :
    ∃ g1 n1, updateGrid emptyGrid emptyGrid = some (g1, n1) ∧
      (readCell g1 0 0 = some true ↔
        (readCell emptyGrid 0 0 = some true ∧
            (countNeighbors emptyGrid 0 0 = some 2 ∨ countNeighbors emptyGrid 0 0 = some 3)) ∨
          (readCell emptyGrid 0 0 = some false ∧ countNeighbors emptyGrid 0 0 = some 3)) :=
  updateGrid_rule emptyGrid emptyGrid emptyGrid_wellFormed emptyGrid_wellFormed 0 0
    (by decide) (by decide) (by decide) (by decide)

/-- Claim C2. For every 80x60 grid `g` and all `int` values `x`, `y` (inside the grid or
not), `countNeighbors(g, x, y)` returns the number of positions `(x + dx, y + dy)` with
`dx, dy` in `{-1, 0, 1}`, `(dx, dy) != (0, 0)`, that lie inside `[0, 80) x [0, 60)` and are
alive in `g` (`aliveNeighbourCount`, which applies no wraparound and leaves out the cell
itself), and the result is between 0 and 8. -/
theorem countNeighbors_spec (g : Grid) (hg : WellFormed g) (x y : Int)
    (hx : isInt32 x) (hy : isInt32 y) :
    ∃ c : Int, countNeighbors g x y = some c ∧ c = (aliveNeighbourCount g x y : Int) ∧
      0 ≤ c ∧ c ≤ 8 := by
  refine ⟨liveNeighbors g x y, countNeighbors_eq hg hx hy, liveNeighbors_eq_count hg x y, ?_, ?_⟩
  · rw [liveNeighbors_eq_count hg]
    exact Int.natCast_nonneg _
  · rw [liveNeighbors_eq_count hg]
    exact_mod_cast aliveNeighbourCount_le g x y

/-- Witness of `countNeighbors_spec`: the all-dead grid queried at `(-1, 60)`, a position
outside the grid. -/
theorem countNeighbors_spec_witness :
    ∃ c : Int, countNeighbors emptyGrid (-1) 60 = some c ∧
      c = (aliveNeighbourCount emptyGrid (-1) 60 : Int) ∧ 0 ≤ c ∧ c ≤ 8 :=
  countNeighbors_spec emptyGrid emptyGrid_wellFormed (-1) 60 (by decide) (by decide)

/-- Claim C3. Pushing any sequence `gs` of `n` grids one after another onto an empty history
with the program's push step (`push_back`, then `pop_front` if the size exceeds 100) leaves
exactly `min n 100` entries, and they are the last `min n 100` grids of `gs` in push order;
so 150 pushes leave the 100 most recent. -/
theorem history_push_sequence (gs : List Grid) :
    (gs.foldl pushHistory []).length = min gs.length 100 ∧
      gs.foldl pushHistory [] = gs.drop (gs.length - min gs.length 100) := by
  have h := foldl_pushHistory gs [] (by simp)
  simp only [List.nil_append] at h
  have hd : gs.length - min gs.length 100 = gs.length - 100 := by omega
  rw [hd, h, List.length_drop]
  exact ⟨by omega, rfl⟩

/-- Claim C4. From every paused SIMULATION state with 80x60 grids, a step forward
immediately followed by a step backward restores the grid exactly, and restores the history
exactly when it held fewer than 100 entries. This holds both when the two commands come in
consecutive frames (`iF` then `iB`) and when both keys are pressed in the same frame (`iFB`,
where the forward step is applied before the backward step). -/
theorem stepForward_stepBackward_roundtrip (s : Session) (iF iB iFB : Input)
    (hs : SessionWF s) (hsim : s.currentState = GameState.SIMULATION) (hp : s.paused = true)
    (hF : OnlyStepKeys iF) (hFr : iF.keyRight = true) (hFl : iF.keyLeft = false)
    (hB : OnlyStepKeys iB) (hBr : iB.keyRight = false) (hBl : iB.keyLeft = true)
    (hFB : OnlyStepKeys iFB) (hFBr : iFB.keyRight = true) (hFBl : iFB.keyLeft = true) :
    (∃ s2, runTicks s [iF, iB] = some (Outcome.running s2) ∧ s2.grid = s.grid ∧
        (s.history.length < 100 → s2.history = s.history)) ∧
      (∃ s1, tick s iFB = some (Outcome.running s1) ∧ s1.grid = s.grid ∧
        (s.history.length < 100 → s1.history = s.history)) := by
  refine ⟨⟨afterForwardBack s, ?_, rfl, ?_⟩, ⟨afterForwardBack s, ?_, rfl, ?_⟩⟩
  · exact runTicks_forward_back hs hsim hp hF hFr hFl hB hBr hBl
  · intro hlen
    exact pushHistory_dropLast _ _ hlen
  · exact tick_forward_back hs hsim hp hFB hFBr hFBl
  · intro hlen
    exact pushHistory_dropLast _ _ hlen

/-- Witness of `stepForward_stepBackward_roundtrip`: the paused blank session, with RIGHT
then LEFT in two frames and with both keys in one frame. -/
theorem stepForward_stepBackward_roundtrip_witness :
    SessionWF pausedBlankSession ∧
    (∃ s2, runTicks pausedBlankSession [stepForwardInput, stepBackwardInput]
          = some (Outcome.running s2) ∧ s2.grid = pausedBlankSession.grid ∧
        (pausedBlankSession.history.length < 100 → s2.history = pausedBlankSession.history)) ∧
      (∃ s1, tick pausedBlankSession stepBothInput = some (Outcome.running s1) ∧
        s1.grid = pausedBlankSession.grid ∧
        (pausedBlankSession.history.length < 100 → s1.history = pausedBlankSession.history)) :=
  ⟨pausedBlankSession_wf,
    stepForward_stepBackward_roundtrip pausedBlankSession stepForwardInput stepBackwardInput
      stepBothInput pausedBlankSession_wf rfl rfl ⟨rfl, rfl, rfl, rfl, rfl⟩ rfl rfl
      ⟨rfl, rfl, rfl, rfl, rfl⟩ rfl rfl ⟨rfl, rfl, rfl, rfl, rfl⟩ rfl rfl⟩

/-- Claim C6. In every session state reachable from the initial state by any sequence of
frames with any inputs, the history holds at most 100 snapshots, and the live grid and
every snapshot in the history have exactly 60 rows of 80 cells. -/
theorem reachable_history_bounded_grids_sized (s : Session) (h : Reachable s) :
    s.history.length ≤ MAX_HISTORY ∧
      (s.grid.length = 60 ∧ ∀ row ∈ s.grid, row.length = 80) ∧
      ∀ g ∈ s.history, g.length = 60 ∧ ∀ row ∈ g, row.length = 80 :=
  ⟨(reachable_wf_bounded h).2, (reachable_wf_bounded h).1.1, (reachable_wf_bounded h).1.2.2⟩

/-- Witness of `reachable_history_bounded_grids_sized`: the state reached from the initial
state by one frame in which START is clicked. -/
theorem reachable_history_bounded_grids_sized_witness :
    ({ initialSession with currentState := GameState.SEED_MENU } : Session).history.length
        ≤ MAX_HISTORY ∧
      (({ initialSession with currentState := GameState.SEED_MENU } : Session).grid.length = 60 ∧
        ∀ row ∈ ({ initialSession with currentState := GameState.SEED_MENU } : Session).grid,
          row.length = 80) ∧
      ∀ g ∈ ({ initialSession with currentState := GameState.SEED_MENU } : Session).history,
        g.length = 60 ∧ ∀ row ∈ g, row.length = 80 :=
  reachable_history_bounded_grids_sized _
    (Reachable.step clickStartInput Reachable.init tick_initial_clickStart)

/-- Claim C7. In SIMULATION mode with `paused = false` and the frame counter at 0, a run of
`m` consecutive frames without any command does not stop and leaves the grid equal to the
step function applied exactly `m / 6` (rounded down) times to the initial grid: a step
occurs on every 6th frame and on no other frame. In particular `6 * k` frames give exactly
`k` steps. -/
theorem autoAdvance_cadence (s : Session) (inputs : List Input) (hs : SessionWF s)
    (hsim : s.currentState = GameState.SIMULATION) (hp : s.paused = false)
    (hc : s.frameCounter = 0) (hall : ∀ i ∈ inputs, NoCommand i) :
    ∃ s1, runTicks s inputs = some (Outcome.running s1) ∧
      stepTimes (inputs.length / 6) s.grid = some s1.grid ∧
      ∀ k, inputs.length = 6 * k → stepTimes k s.grid = some s1.grid := by
  obtain ⟨s1, hr, hg, -⟩ := runTicks_idle inputs s 0 hs hsim hp (by rw [hc]; rfl) (by omega) hall
  rw [Nat.zero_add] at hg
  have hst : stepTimes (inputs.length / 6) s.grid = some s1.grid := by
    rw [stepTimes_eq hs.1, hg]
  refine ⟨s1, hr, hst, ?_⟩
  intro k hk
  have : inputs.length / 6 = k := by omega
  rw [← this]
  exact hst

/-- Witness of `autoAdvance_cadence`: twelve idle frames on the running blank session. -/
theorem autoAdvance_cadence_witness :
    ∃ s1, runTicks runningBlankSession (List.replicate 12 idleInput)
          = some (Outcome.running s1) ∧
      stepTimes ((List.replicate 12 idleInput).length / 6) runningBlankSession.grid
          = some s1.grid ∧
      ∀ k, (List.replicate 12 idleInput).length = 6 * k →
        stepTimes k runningBlankSession.grid = some s1.grid :=
  autoAdvance_cadence runningBlankSession (List.replicate 12 idleInput) runningBlankSession_wf
    rfl rfl rfl (fun i hi => by rw [List.eq_of_mem_replicate hi]; exact idleInput_noCommand)

/-- Claim C8, as amended. For every SEED_MENU state with 80x60 grids, a frame in which the
BLANK or the RANDOM SEED button is clicked ends with the history empty and `paused = false`;
it ends in SIMULATION mode when ESCAPE is not pressed in that frame and in MAIN_MENU mode
when it is. For BLANK every cell of the grid is dead. -/
theorem seed_choice (s : Session) (i : Input) (hs : SessionWF s)
    (hseed : s.currentState = GameState.SEED_MENU)
    (hc : blankClicked i = true ∨ randomClicked i = true) :
    ∃ s1, tick s i = some (Outcome.running s1) ∧ s1.history = [] ∧ s1.paused = false ∧
      s1.currentState = (if i.keyEscape then GameState.MAIN_MENU else GameState.SIMULATION) ∧
      (blankClicked i = true →
        ∀ x y : Int, 0 ≤ x → x < 80 → 0 ≤ y → y < 60 → readCell s1.grid x y = some false) := by
  obtain ⟨h1, h2, h3, h4⟩ := seedMenuPure_fields (s := s) hc
  refine ⟨seedMenuPure s i, ?_, h1, h2, h3, ?_⟩
  · rw [tick_eq hs, tickPure_seedMenu i hseed]
  · intro hb x y hx0 hx hy0 hy
    rw [h4 hb]
    exact readCell_emptyGrid hx0 hx hy0 hy

/-- Witness of `seed_choice`: BLANK clicked on the seed menu reached from the initial
state. -/
theorem seed_choice_witness :
    ∃ s1, tick seedMenuSession clickBlankInput = some (Outcome.running s1) ∧ s1.history = [] ∧
      s1.paused = false ∧
      s1.currentState
        = (if clickBlankInput.keyEscape then GameState.MAIN_MENU else GameState.SIMULATION) ∧
      (blankClicked clickBlankInput = true →
        ∀ x y : Int, 0 ≤ x → x < 80 → 0 ≤ y → y < 60 → readCell s1.grid x y = some false) :=
  seed_choice seedMenuSession clickBlankInput seedMenuSession_wf rfl (Or.inl (by decide))

/-- Claim C8 fails as stated: on the seed menu, a frame in which BLANK is clicked while
ESCAPE is pressed ends in MAIN_MENU mode, not in SIMULATION mode. -/
theorem seed_choice_escape_counterexample :
    seedMenuSession.currentState = GameState.SEED_MENU ∧
      blankClicked blankEscapeInput = true ∧
      ∃ s1, tick seedMenuSession blankEscapeInput = some (Outcome.running s1) ∧
        s1.currentState = GameState.MAIN_MENU ∧ s1.currentState ≠ GameState.SIMULATION := by
  refine ⟨rfl, by decide, seedMenuPure seedMenuSession blankEscapeInput, ?_, ?_, ?_⟩
  · rw [tick_eq seedMenuSession_wf, tickPure_seedMenu _ rfl]
  · exact (seedMenuPure_fields (s := seedMenuSession) (Or.inl (by decide))).2.2.1
  · rw [(seedMenuPure_fields (s := seedMenuSession) (i := blankEscapeInput)
      (Or.inl (by decide))).2.2.1]
    decide

/-- Claim C9, as amended. For every SIMULATION state with 80x60 grids (paused or not, any
frame counter, any other input in the same frame), a frame in which ESCAPE is pressed makes
no auto-advance and leaves every grid cell dead, the history empty and `paused = true`. The
main menu is drawn in that same frame: the frame ends in MAIN_MENU mode unless the left
mouse button is pressed on the START button (then it ends in SEED_MENU mode) or on the QUIT
button (then `main` returns). -/
theorem escape_from_simulation (s : Session) (i : Input) (hs : SessionWF s)
    (hsim : s.currentState = GameState.SIMULATION) (he : i.keyEscape = true) :
    (quitClicked i = true → tick s i = some Outcome.exited) ∧
      (quitClicked i = false →
        ∃ s1, tick s i = some (Outcome.running s1) ∧
          s1.currentState
            = (if startClicked i then GameState.SEED_MENU else GameState.MAIN_MENU) ∧
          (∀ x y : Int, 0 ≤ x → x < 80 → 0 ≤ y → y < 60 →
            readCell s1.grid x y = some false) ∧
          s1.history = [] ∧ s1.paused = true ∧ s1.frameCounter = s.frameCounter) := by
  have ht : tick s i = some (drawMainMenu (simulationPure s i) i) := by
    rw [tick_eq hs, tickPure_escape hsim he]
  rw [ht, drawMainMenu_eq, simulationPure_escape s he]
  constructor
  · intro hq
    rw [if_pos hq]
  · intro hq
    rw [if_neg (by rw [hq]; decide)]
    refine ⟨_, rfl, ?_, ?_, ?_, ?_, ?_⟩
    · cases startClicked i <;> rfl
    · intro x y hx0 hx hy0 hy
      have hg : ∀ c : Bool, (if c = true then
          ({ ({ clearPure (beforeClear s i) i with
                currentState := GameState.MAIN_MENU, paused := true, grid := emptyGrid,
                history := [] } : Session) with currentState := GameState.SEED_MENU } : Session)
          else ({ clearPure (beforeClear s i) i with
                currentState := GameState.MAIN_MENU, paused := true, grid := emptyGrid,
                history := [] } : Session)).grid = emptyGrid := by
        intro c; cases c <;> rfl
      rw [hg]
      exact readCell_emptyGrid hx0 hx hy0 hy
    · cases startClicked i <;> rfl
    · cases startClicked i <;> rfl
    · have hf : ∀ c : Bool, (if c = true then
          ({ ({ clearPure (beforeClear s i) i with
                currentState := GameState.MAIN_MENU, paused := true, grid := emptyGrid,
                history := [] } : Session) with currentState := GameState.SEED_MENU } : Session)
          else ({ clearPure (beforeClear s i) i with
                currentState := GameState.MAIN_MENU, paused := true, grid := emptyGrid,
                history := [] } : Session)).frameCounter
            = (clearPure (beforeClear s i) i).frameCounter := by
        intro c; cases c <;> rfl
      rw [hf, clearPure_frameCounter, beforeClear_frameCounter]

/-- Witness of `escape_from_simulation`: ESCAPE alone on the running blank session. -/
theorem escape_from_simulation_witness :
    (quitClicked escapeInput = true → tick runningBlankSession escapeInput = some Outcome.exited) ∧
      (quitClicked escapeInput = false →
        ∃ s1, tick runningBlankSession escapeInput = some (Outcome.running s1) ∧
          s1.currentState
            = (if startClicked escapeInput then GameState.SEED_MENU else GameState.MAIN_MENU) ∧
          (∀ x y : Int, 0 ≤ x → x < 80 → 0 ≤ y → y < 60 →
            readCell s1.grid x y = some false) ∧
          s1.history = [] ∧ s1.paused = true ∧
          s1.frameCounter = runningBlankSession.frameCounter) :=
  escape_from_simulation runningBlankSession escapeInput runningBlankSession_wf rfl rfl

/-- Claim C9 fails as stated: in a SIMULATION frame in which ESCAPE is pressed while the left
mouse button goes down at pixel `(400, 280)`, the update half switches to the main menu, the
drawing half of the same frame then finds START clicked, and the frame ends in SEED_MENU
mode, not in MAIN_MENU mode. -/
theorem escape_click_start_counterexample :
    runningBlankSession.currentState = GameState.SIMULATION ∧
      escapeClickStartInput.keyEscape = true ∧
      ∃ s1, tick runningBlankSession escapeClickStartInput = some (Outcome.running s1) ∧
        s1.currentState = GameState.SEED_MENU ∧ s1.currentState ≠ GameState.MAIN_MENU := by
  have hq : quitClicked escapeClickStartInput = false := by decide
  have hst : startClicked escapeClickStartInput = true := by decide
  have ht : tick runningBlankSession escapeClickStartInput
      = some (Outcome.running
          { simulationPure runningBlankSession escapeClickStartInput with
            currentState := GameState.SEED_MENU }) := by
    rw [tick_eq runningBlankSession_wf, tickPure_escape rfl rfl, drawMainMenu_eq, hq, hst]
    rfl
  exact ⟨rfl, rfl, _, ht, rfl, by decide⟩

/-- Claim C10, as amended. For every SIMULATION state with 80x60 grids, a frame in which C
is pressed and ESCAPE is not ends with every grid cell dead and the mode still SIMULATION.
The history ends empty unless that frame auto-advances (not paused once the pause toggle of
the frame is applied, and the frame counter reaching 6): auto-advance runs after the clear
and pushes the cleared grid, so the history then holds exactly one snapshot, the all-dead
grid. -/
theorem clear_in_simulation (s : Session) (i : Input) (hs : SessionWF s)
    (hsim : s.currentState = GameState.SIMULATION) (hc : i.keyC = true)
    (he : i.keyEscape = false) :
    ∃ s1, tick s i = some (Outcome.running s1) ∧
      (∀ x y : Int, 0 ≤ x → x < 80 → 0 ≤ y → y < 60 → readCell s1.grid x y = some false) ∧
      s1.currentState = GameState.SIMULATION ∧
      s1.history
        = (if (handlePause s i).paused = false ∧ wrapInt (s.frameCounter + 1) ≥ 6
            then [emptyGrid] else []) := by
  obtain ⟨h1, h2, h3⟩ := simulationPure_clear s hc he
  refine ⟨simulationPure s i, ?_, ?_, ?_, h3⟩
  · rw [tick_eq hs, tickPure_simulation i hsim (by rw [h2]; exact hsim)]
  · intro x y hx0 hx hy0 hy
    rw [h1]
    exact readCell_emptyGrid hx0 hx hy0 hy
  · rw [h2]; exact hsim

/-- Witness of `clear_in_simulation`: C alone on the paused blank session. -/
theorem clear_in_simulation_witness :
    ∃ s1, tick pausedBlankSession clearInput = some (Outcome.running s1) ∧
      (∀ x y : Int, 0 ≤ x → x < 80 → 0 ≤ y → y < 60 → readCell s1.grid x y = some false) ∧
      s1.currentState = GameState.SIMULATION ∧
      s1.history
        = (if (handlePause pausedBlankSession clearInput).paused = false ∧
              wrapInt (pausedBlankSession.frameCounter + 1) ≥ 6
            then [emptyGrid] else []) :=
  clear_in_simulation pausedBlankSession clearInput pausedBlankSession_wf rfl rfl rfl

/-- Claim C10 fails as stated: in a running SIMULATION whose frame counter stands at 5, a
frame in which C is pressed clears the history and then auto-advances, which pushes the
cleared grid; the frame ends with one snapshot in the history, not with an empty one. -/
theorem clear_then_autoAdvance_counterexample :
    runningBlankSessionAt5.currentState = GameState.SIMULATION ∧
      clearInput.keyC = true ∧ clearInput.keyEscape = false ∧
      ∃ s1, tick runningBlankSessionAt5 clearInput = some (Outcome.running s1) ∧
        s1.history = [emptyGrid] ∧ s1.history ≠ [] := by
  have hwf : SessionWF runningBlankSessionAt5 :=
    ⟨emptyGrid_wellFormed, emptyGrid_wellFormed, fun _ hh => by cases hh⟩
  obtain ⟨-, h2, h3⟩ := simulationPure_clear runningBlankSessionAt5 (i := clearInput) rfl rfl
  have hcond : (handlePause runningBlankSessionAt5 clearInput).paused = false ∧
      wrapInt (runningBlankSessionAt5.frameCounter + 1) ≥ 6 := ⟨rfl, by decide⟩
  rw [if_pos hcond] at h3
  refine ⟨rfl, rfl, rfl, simulationPure runningBlankSessionAt5 clearInput, ?_, h3, ?_⟩
  · rw [tick_eq hwf, tickPure_simulation clearInput rfl (by rw [h2]; rfl)]
  · rw [h3]; exact List.cons_ne_nil _ _

/-- Claim C5, as amended. Placing the standard 5-cell glider anywhere in the interior of an
otherwise dead 80x60 grid (its 3 x 3 box at `(ox, oy)` with at least one more column to the
right and one more row below inside the grid) and applying the step function four times,
one full period of the glider, yields the same glider pattern translated by `(1, 1)`. -/
theorem glider_period (ox oy : Int) (hox0 : 0 ≤ ox) (hox : ox + 3 < 80) (hoy0 : 0 ≤ oy)
    (hoy : oy + 3 < 60) :
    stepTimes 4 (gliderGrid ox oy) = some (gliderGrid (ox + 1) (oy + 1)) := by
  rw [stepTimes_eq (gliderGrid_wellFormed ox oy), ← glider_four_steps hox0 hox hoy0 hoy]
  rfl

/-- Witness of `glider_period`: the glider whose box has its corner at `(10, 10)`. -/
theorem glider_period_witness :
    stepTimes 4 (gliderGrid 10 10) = some (gliderGrid (10 + 1) (10 + 1)) :=
  glider_period 10 10 (by decide) (by decide) (by decide) (by decide)

/-- Claim C5 fails as stated: two steps applied to the glider placed at `(10, 10)` do not
give the glider pattern translated by any offset `(dx, dy)` at all. The grid after two steps
holds the glider in another phase. -/
theorem glider_two_steps_counterexample :
    ¬ ∃ dx dy : Int, stepTimes 2 (gliderGrid 10 10) = some (gliderGrid (10 + dx) (10 + dy)) := by
  rintro ⟨dx, dy, h⟩
  rw [stepTimes_eq (gliderGrid_wellFormed 10 10)] at h
  have h2 : stepGrid^[2] (gliderGrid 10 10) = patternGrid gliderGen2 10 10 :=
    glider_two_steps (by decide) (by decide) (by decide) (by decide)
  rw [h2] at h
  injection h with h
  have key : ∀ x y : Int, 0 ≤ x → x < 80 → 0 ≤ y → y < 60 →
      hasCell gliderGen2 (x - 10) (y - 10) = hasCell gliderCells (x - (10 + dx)) (y - (10 + dy)) := by
    intro x y hx0 hx hy0 hy
    rw [← cellAt_patternGrid gliderGen2 10 10 hx0 hx hy0 hy, h]
    exact cellAt_patternGrid gliderCells _ _ hx0 hx hy0 hy
  have h1 := key 12 11 (by decide) (by decide) (by decide) (by decide)
  have h1a : hasCell gliderGen2 (12 - 10) (11 - 10) = true := by decide
  rw [h1a] at h1
  have hmem := of_decide_eq_true h1.symm
  simp only [gliderCells, List.mem_cons, Prod.mk.injEq, List.mem_singleton, List.mem_nil_iff,
    or_false] at hmem
  have hcases : (dx = 1 ∧ dy = 1) ∨ (dx = 0 ∧ dy = 0) ∨ (dx = 2 ∧ dy = -1) ∨
      (dx = 1 ∧ dy = -1) ∨ (dx = 0 ∧ dy = -1) := by omega
  rcases hcases with ⟨rfl, rfl⟩ | ⟨rfl, rfl⟩ | ⟨rfl, rfl⟩ | ⟨rfl, rfl⟩ | ⟨rfl, rfl⟩
  · exact absurd (key 13 12 (by decide) (by decide) (by decide) (by decide)) (by decide)
  · exact absurd (key 11 10 (by decide) (by decide) (by decide) (by decide)) (by decide)
  · exact absurd (key 13 9 (by decide) (by decide) (by decide) (by decide)) (by decide)
  · exact absurd (key 12 9 (by decide) (by decide) (by decide) (by decide)) (by decide)
  · exact absurd (key 11 9 (by decide) (by decide) (by decide) (by decide)) (by decide)

/-- Claim C11. For every SIMULATION state whose history is empty, the step backward command
(LEFT pressed) leaves the whole session unchanged: the grid, the empty history, the mode and
the paused flag; the handler cannot fail. Accordingly a frame of a paused, well-formed
SIMULATION state in which LEFT is the only command returns the same session without any
out-of-range access. -/
theorem stepBackward_empty_history (s : Session) (i : Input)
    (hsim : s.currentState = GameState.SIMULATION) (hh : s.history = [])
    (_hl : i.keyLeft = true) :
    (handleStepBackward s i).grid = s.grid ∧ (handleStepBackward s i).history = [] ∧
      (handleStepBackward s i).currentState = GameState.SIMULATION ∧
      (handleStepBackward s i).paused = s.paused ∧
      (SessionWF s → s.paused = true → OnlyStepKeys i → i.keyRight = false →
        tick s i = some (Outcome.running s)) := by
  have he := handleStepBackward_empty s i hh
  refine ⟨by rw [he], by rw [he, hh], by rw [he, hsim], by rw [he], ?_⟩
  intro hs hp hi hr
  have e : simulationPure s i = s := by
    rw [simulationPure_steps hi hp, stepForwardPure_released _ hr, he]
  rw [tick_eq hs, tickPure_simulation i hsim (by rw [e]; exact hsim), e]

/-- Witness of `stepBackward_empty_history`: LEFT on the paused blank session. -/
theorem stepBackward_empty_history_witness :
    (handleStepBackward pausedBlankSession stepBackwardInput).grid = pausedBlankSession.grid ∧
      (handleStepBackward pausedBlankSession stepBackwardInput).history = [] ∧
      (handleStepBackward pausedBlankSession stepBackwardInput).currentState
        = GameState.SIMULATION ∧
      (handleStepBackward pausedBlankSession stepBackwardInput).paused
        = pausedBlankSession.paused ∧
      (SessionWF pausedBlankSession → pausedBlankSession.paused = true →
        OnlyStepKeys stepBackwardInput → stepBackwardInput.keyRight = false →
        tick pausedBlankSession stepBackwardInput = some (Outcome.running pausedBlankSession)) :=
  stepBackward_empty_history pausedBlankSession stepBackwardInput rfl rfl rfl

/-- Claim C12. For every SIMULATION frame on a well-formed session in which `paused` is
false once the pause toggle of that frame is applied, the step forward and step backward
commands have no effect: the frame has the same outcome (grid, history, paused flag,
counter and mode) as the same frame with RIGHT and LEFT released. -/
theorem steps_ignored_when_running (s : Session) (i : Input) (hs : SessionWF s)
    (hsim : s.currentState = GameState.SIMULATION) (hp : (handlePause s i).paused = false) :
    ∃ o, tick s i = some o ∧
      tick s { i with keyRight := false, keyLeft := false } = some o := by
  refine ⟨tickPure s i, tick_eq hs i, ?_⟩
  rw [tick_eq hs]
  unfold tickPure updatePure
  rw [hsim]
  simp only
  rw [← simulationPure_steps_ignored s i hp, ← drawFramePure_steps_ignored]

/-- Witness of `steps_ignored_when_running`: RIGHT and LEFT pressed on the running blank
session. -/
theorem steps_ignored_when_running_witness :
    ∃ o, tick runningBlankSession stepBothInput = some o ∧
      tick runningBlankSession { stepBothInput with keyRight := false, keyLeft := false }
        = some o :=
  steps_ignored_when_running runningBlankSession stepBothInput runningBlankSession_wf rfl rfl

/-- Claim C13. On every session with 80x60 grids and for all integer cell coordinates
`(x, y)` under the mouse: a draw (left button held) at `(x, y)` inside the grid makes cell
`(x, y)` alive and leaves every other cell unchanged, an erase (right button held) makes it
dead and leaves every other cell unchanged; with `(x, y)` outside the grid the grid is
unchanged; in all cases the history is unchanged and no access is out of range. -/
theorem draw_erase_cell (s : Session) (i : Input) (x y : Int) (hs : SessionWF s)
    (hx : Int.tdiv i.mouseX CELL_SIZE = x) (hy : Int.tdiv i.mouseY CELL_SIZE = y) :
    (i.mouseLeftDown = true →
      ∃ s1, handleDraw s i = some s1 ∧ s1.history = s.history ∧
        ((0 ≤ x ∧ x < 80 ∧ 0 ≤ y ∧ y < 60) →
          readCell s1.grid x y = some true ∧
          ∀ x1 y1 : Int, 0 ≤ x1 → x1 < 80 → 0 ≤ y1 → y1 < 60 → (x1, y1) ≠ (x, y) →
            readCell s1.grid x1 y1 = readCell s.grid x1 y1) ∧
        (¬ (0 ≤ x ∧ x < 80 ∧ 0 ≤ y ∧ y < 60) → s1.grid = s.grid)) ∧
    (i.mouseRightDown = true →
      ∃ s1, handleErase s i = some s1 ∧ s1.history = s.history ∧
        ((0 ≤ x ∧ x < 80 ∧ 0 ≤ y ∧ y < 60) →
          readCell s1.grid x y = some false ∧
          ∀ x1 y1 : Int, 0 ≤ x1 → x1 < 80 → 0 ≤ y1 → y1 < 60 → (x1, y1) ≠ (x, y) →
            readCell s1.grid x1 y1 = readCell s.grid x1 y1) ∧
        (¬ (0 ≤ x ∧ x < 80 ∧ 0 ≤ y ∧ y < 60) → s1.grid = s.grid)) := by
  subst hx hy
  constructor
  · intro hd
    refine ⟨drawPure s i, handleDraw_eq hs i, drawPure_history s i, ?_, ?_⟩
    · intro hin
      have hc : i.mouseLeftDown = true ∧ Int.tdiv i.mouseX CELL_SIZE ≥ 0 ∧
          Int.tdiv i.mouseX CELL_SIZE < GRID_WIDTH ∧ Int.tdiv i.mouseY CELL_SIZE ≥ 0 ∧
          Int.tdiv i.mouseY CELL_SIZE < GRID_HEIGHT :=
        ⟨hd, hin.1, hin.2.1, hin.2.2.1, hin.2.2.2⟩
      unfold drawPure
      rw [if_pos hc]
      exact readCell_setCell hs.1 hin.1 hin.2.1 hin.2.2.1 hin.2.2.2 true
    · intro hout
      have hc : ¬ (i.mouseLeftDown = true ∧ Int.tdiv i.mouseX CELL_SIZE ≥ 0 ∧
          Int.tdiv i.mouseX CELL_SIZE < GRID_WIDTH ∧ Int.tdiv i.mouseY CELL_SIZE ≥ 0 ∧
          Int.tdiv i.mouseY CELL_SIZE < GRID_HEIGHT) :=
        fun h => hout ⟨h.2.1, h.2.2.1, h.2.2.2.1, h.2.2.2.2⟩
      unfold drawPure
      rw [if_neg hc]
  · intro hd
    refine ⟨erasePure s i, handleErase_eq hs i, erasePure_history s i, ?_, ?_⟩
    · intro hin
      have hc : i.mouseRightDown = true ∧ Int.tdiv i.mouseX CELL_SIZE ≥ 0 ∧
          Int.tdiv i.mouseX CELL_SIZE < GRID_WIDTH ∧ Int.tdiv i.mouseY CELL_SIZE ≥ 0 ∧
          Int.tdiv i.mouseY CELL_SIZE < GRID_HEIGHT :=
        ⟨hd, hin.1, hin.2.1, hin.2.2.1, hin.2.2.2⟩
      unfold erasePure
      rw [if_pos hc]
      exact readCell_setCell hs.1 hin.1 hin.2.1 hin.2.2.1 hin.2.2.2 false
    · intro hout
      have hc : ¬ (i.mouseRightDown = true ∧ Int.tdiv i.mouseX CELL_SIZE ≥ 0 ∧
          Int.tdiv i.mouseX CELL_SIZE < GRID_WIDTH ∧ Int.tdiv i.mouseY CELL_SIZE ≥ 0 ∧
          Int.tdiv i.mouseY CELL_SIZE < GRID_HEIGHT) :=
        fun h => hout ⟨h.2.1, h.2.2.1, h.2.2.2.1, h.2.2.2.2⟩
      unfold erasePure
      rw [if_neg hc]

/-- Witness of `draw_erase_cell`: on the paused blank session, the left button held at pixel
`(400, 280)`, which is cell `(40, 28)`. -/
theorem draw_erase_cell_witness :
    (clickStartInput.mouseLeftDown = true →
      ∃ s1, handleDraw pausedBlankSession clickStartInput = some s1 ∧
        s1.history = pausedBlankSession.history ∧
        ((0 ≤ (40 : Int) ∧ (40 : Int) < 80 ∧ 0 ≤ (28 : Int) ∧ (28 : Int) < 60) →
          readCell s1.grid 40 28 = some true ∧
          ∀ x1 y1 : Int, 0 ≤ x1 → x1 < 80 → 0 ≤ y1 → y1 < 60 → (x1, y1) ≠ (40, 28) →
            readCell s1.grid x1 y1 = readCell pausedBlankSession.grid x1 y1) ∧
        (¬ (0 ≤ (40 : Int) ∧ (40 : Int) < 80 ∧ 0 ≤ (28 : Int) ∧ (28 : Int) < 60) →
          s1.grid = pausedBlankSession.grid)) ∧
    (clickStartInput.mouseRightDown = true →
      ∃ s1, handleErase pausedBlankSession clickStartInput = some s1 ∧
        s1.history = pausedBlankSession.history ∧
        ((0 ≤ (40 : Int) ∧ (40 : Int) < 80 ∧ 0 ≤ (28 : Int) ∧ (28 : Int) < 60) →
          readCell s1.grid 40 28 = some false ∧
          ∀ x1 y1 : Int, 0 ≤ x1 → x1 < 80 → 0 ≤ y1 → y1 < 60 → (x1, y1) ≠ (40, 28) →
            readCell s1.grid x1 y1 = readCell pausedBlankSession.grid x1 y1) ∧
        (¬ (0 ≤ (40 : Int) ∧ (40 : Int) < 80 ∧ 0 ≤ (28 : Int) ∧ (28 : Int) < 60) →
          s1.grid = pausedBlankSession.grid)) :=
  draw_erase_cell pausedBlankSession clickStartInput 40 28 pausedBlankSession_wf
    (by decide) (by decide)

/-- Claim C14. Applying the step function (`updateGrid`, with any 80x60 `nextGrid` buffer)
to the all-dead 80x60 grid yields the all-dead grid. -/
theorem updateGrid_emptyGrid (n : Grid) (hn : WellFormed n) :
    updateGrid emptyGrid n = some (emptyGrid, emptyGrid) ∧ step emptyGrid = some emptyGrid := by
  constructor
  · rw [updateGrid_eq emptyGrid_wellFormed hn, stepGrid_emptyGrid]
  · rw [step_eq emptyGrid_wellFormed, stepGrid_emptyGrid]

/-- Witness of `updateGrid_emptyGrid`: the buffer holding a glider. -/
theorem updateGrid_emptyGrid_witness :
    updateGrid emptyGrid (gliderGrid 10 10) = some (emptyGrid, emptyGrid) ∧
      step emptyGrid = some emptyGrid :=
  updateGrid_emptyGrid (gliderGrid 10 10) (gliderGrid_wellFormed 10 10)

/-- Claim C15. For every 80x60 grid `g`, `countNeighbors(g, 0, 0)` returns (so no grid
access made while computing it is out of range) the number of alive cells among exactly the
three positions `(1, 0)`, `(0, 1)` and `(1, 1)`, and the result is at most 3. -/
theorem countNeighbors_corner (g : Grid) (hg : WellFormed g) :
    ∃ c : Int, countNeighbors g 0 0 = some c ∧
      c = (cornerNeighbours.countP (fun p => readCell g p.1 p.2 == some true) : Nat) ∧
      0 ≤ c ∧ c ≤ 3 := by
  have hc := cornerNeighbours_count hg
  refine ⟨liveNeighbors g 0 0, countNeighbors_eq hg (by decide) (by decide), ?_, ?_, ?_⟩
  · rw [liveNeighbors_corner, hc]
  · rw [liveNeighbors_corner, ← hc]
    exact Int.natCast_nonneg _
  · rw [liveNeighbors_corner, ← hc]
    have : cornerNeighbours.countP (fun p => readCell g p.1 p.2 == some true) ≤ 3 :=
      le_trans (List.countP_le_length _) (by decide)
    exact_mod_cast this

/-- Witness of `countNeighbors_corner`: the grid holding a glider at the corner. -/
theorem countNeighbors_corner_witness :
    ∃ c : Int, countNeighbors (gliderGrid 0 0) 0 0 = some c ∧
      c = (cornerNeighbours.countP
            (fun p => readCell (gliderGrid 0 0) p.1 p.2 == some true) : Nat) ∧
      0 ≤ c ∧ c ≤ 3 :=
  countNeighbors_corner (gliderGrid 0 0) (gliderGrid_wellFormed 0 0)

/-- Claim C16, evaluated on the code. With the threshold 30 of the default density 0.3,
`randomSeed` leaves a cell alive for exactly 30 of the 101 equally likely draws `0..100` of
`GetRandomValue(0, 100)`: the fraction is 30/101, not 0.3. -/
theorem randomSeed_alive_fraction :
    aliveDraws emptyGrid 0 0 = 30 ∧ (List.range 101).length = 101 ∧
      ((aliveDraws emptyGrid 0 0 : ℚ) / ((List.range 101).length : ℚ) = 30 / 101) ∧
      ((aliveDraws emptyGrid 0 0 : ℚ) / ((List.range 101).length : ℚ) ≠ 3 / 10) := by
  have h : aliveDraws emptyGrid 0 0 = 30 :=
    aliveDraws_eq emptyGrid_wellFormed (by decide) (by decide) (by decide) (by decide)
  rw [h]
  refine ⟨rfl, by simp, ?_, ?_⟩ <;> simp only [List.length_range] <;> norm_num

/-- Claim C18. For every state in MAIN_MENU mode, one frame either returns from `main` (QUIT
clicked) or ends in MAIN_MENU or SEED_MENU mode (SEED_MENU exactly when START is clicked),
never in SIMULATION mode, and leaves the grid, the history, the paused flag and the frame
counter unchanged. -/
theorem mainMenu_frame (s : Session) (i : Input)
    (hm : s.currentState = GameState.MAIN_MENU) :
    (quitClicked i = true → tick s i = some Outcome.exited) ∧
      (quitClicked i = false →
        ∃ s1, tick s i = some (Outcome.running s1) ∧
          s1.currentState
            = (if startClicked i then GameState.SEED_MENU else GameState.MAIN_MENU) ∧
          s1.currentState ≠ GameState.SIMULATION ∧
          s1.grid = s.grid ∧ s1.history = s.history ∧ s1.paused = s.paused ∧
          s1.frameCounter = s.frameCounter) := by
  rw [tick_mainMenu s i hm, drawMainMenu_eq]
  constructor
  · intro hq
    rw [if_pos hq]
  · intro hq
    rw [if_neg (by rw [hq]; decide)]
    cases hst : startClicked i
    · exact ⟨s, rfl, by simp [hm], by simp [hm], rfl, rfl, rfl, rfl⟩
    · exact ⟨_, rfl, by simp, by simp, rfl, rfl, rfl, rfl⟩

/-- Witness of `mainMenu_frame`: START clicked on the initial state. -/
theorem mainMenu_frame_witness :
    (quitClicked clickStartInput = true →
        tick initialSession clickStartInput = some Outcome.exited) ∧
      (quitClicked clickStartInput = false →
        ∃ s1, tick initialSession clickStartInput = some (Outcome.running s1) ∧
          s1.currentState
            = (if startClicked clickStartInput then GameState.SEED_MENU
                else GameState.MAIN_MENU) ∧
          s1.currentState ≠ GameState.SIMULATION ∧
          s1.grid = initialSession.grid ∧ s1.history = initialSession.history ∧
          s1.paused = initialSession.paused ∧
          s1.frameCounter = initialSession.frameCounter) :=
  mainMenu_frame initialSession clickStartInput rfl

/-- Claim C19. For every 80x60 grid `g` and any two 80x60 scratch buffers `n1` and `n2`,
`updateGrid(g, n1)` and `updateGrid(g, n2)` return and produce the same grid: the result
does not depend on the stale contents of `nextGrid`, and after the call `nextGrid` equals
the new grid. -/
theorem updateGrid_buffer_independent (g n1 n2 : Grid) (hg : WellFormed g)
    (h1 : WellFormed n1) (h2 : WellFormed n2) :
    ∃ g1, updateGrid g n1 = some (g1, g1) ∧ updateGrid g n2 = some (g1, g1) :=
  ⟨stepGrid g, updateGrid_eq hg h1, updateGrid_eq hg h2⟩

/-- Witness of `updateGrid_buffer_independent`: a glider stepped once with an all-dead
buffer and with a buffer holding another glider. -/
theorem updateGrid_buffer_independent_witness :
    ∃ g1, updateGrid (gliderGrid 10 10) emptyGrid = some (g1, g1) ∧
      updateGrid (gliderGrid 10 10) (gliderGrid 0 0) = some (g1, g1) :=
  updateGrid_buffer_independent (gliderGrid 10 10) emptyGrid (gliderGrid 0 0)
    (gliderGrid_wellFormed 10 10) emptyGrid_wellFormed (gliderGrid_wellFormed 0 0)

/-- Claim C17. In every session state reachable from the initial state by any sequence of
frames with any inputs, if the mode is MAIN_MENU or SEED_MENU then the history is empty. -/
theorem reachable_menu_history_empty (s : Session) (h : Reachable s)
    (hm : s.currentState = GameState.MAIN_MENU ∨ s.currentState = GameState.SEED_MENU) :
    s.history = [] := by
  apply reachable_history_nil h
  rcases hm with hm | hm <;> rw [hm] <;> decide

/-- Witness of `reachable_menu_history_empty`: the seed menu reached from the initial state
by one frame in which START is clicked. -/
theorem reachable_menu_history_empty_witness :
    ({ initialSession with currentState := GameState.SEED_MENU } : Session).history = [] :=
  reachable_menu_history_empty _
    (Reachable.step clickStartInput Reachable.init tick_initial_clickStart) (Or.inr rfl)

/-- Claim C20. In every session state reachable from the initial state the frame counter
satisfies `0 <= frameCounter <= 5`. One more frame changes it only as `nextFrameCounter`
says: it advances modulo 6 in a SIMULATION frame that reaches auto-advance with
`paused = false` (no ESCAPE, and not paused once the pause toggle is applied), and it keeps
its value in every other frame, so pausing, clearing, leaving SIMULATION and entering it
again never reset it. -/
theorem frameCounter_invariant (s : Session) (h : Reachable s) :
    0 ≤ s.frameCounter ∧ s.frameCounter ≤ 5 ∧
      ∀ (i : Input) (s1 : Session), tick s i = some (Outcome.running s1) →
        s1.frameCounter = nextFrameCounter s i := by
  have hb := reachable_frameCounter h
  refine ⟨hb.1, hb.2, ?_⟩
  intro i s1 ht
  rw [tick_eq (reachable_wf_bounded h).1] at ht
  injection ht with ht
  exact tickPure_frameCounter hb.1 hb.2 ht

/-- Witness of `frameCounter_invariant`: the seed menu reached from the initial state by one
frame in which START is clicked. -/
theorem frameCounter_invariant_witness :
    0 ≤ ({ initialSession with currentState := GameState.SEED_MENU } : Session).frameCounter ∧
      ({ initialSession with currentState := GameState.SEED_MENU } : Session).frameCounter ≤ 5 ∧
      ∀ (i : Input) (s1 : Session),
        tick { initialSession with currentState := GameState.SEED_MENU } i
            = some (Outcome.running s1) →
          s1.frameCounter
            = nextFrameCounter { initialSession with currentState := GameState.SEED_MENU } i :=
  frameCounter_invariant _
    (Reachable.step clickStartInput Reachable.init tick_initial_clickStart)

end GameOfLife
